import Mathlib

/-!
# Social server (`src/server.js`): shallow embedding

The server keeps four in-memory arrays (`users`, `posts`, `comments`,
`notifications`) and exposes one Express handler per operation.  Each handler is
embedded as a pure function from the store before the request to the response
and the store after it.  Values produced outside the program (`uuidv4()`,
`new Date()`, bcrypt, `toLowerCase`) are inputs of the request, collected in
`Env`.  A JavaScript exception raised inside a handler is answered with status
500 and the body `Server error` (by the handler's own `catch` or by the error
middleware at the end of the file); writes made before the exception stay.

The process has one JavaScript thread: a handler runs without interruption until
it returns or reaches an `await`.  Only the register and login handlers contain
one (`bcrypt.hash`, `bcrypt.compare`).  Register checks the store before its
`await` and writes after it, so it is embedded in two parts, `registerCheck` and
`registerResume`, between which other requests may be handled; `register` is
the two parts run back to back.  Login writes nothing and is embedded as one
step, its user record being the one stored when the request arrives.
-/

namespace SocialServer

/-! ## Records -/

/-- Element of the `users` array. -/
structure User where
  id : String
  username : String
  email : String
  password : String
  fullName : String
  bio : String
  avatar : String
  createdAt : Nat
  followers : List String
  following : List String
deriving DecidableEq, Repr

/-- Element of the `posts` array. -/
structure Post where
  id : String
  userId : String
  content : String
  media : String
  tags : List String
  likes : List String
  comments : List String
  createdAt : Nat
deriving DecidableEq, Repr

/-- Element of the `comments` array. -/
structure Comment where
  id : String
  postId : String
  userId : String
  content : String
  createdAt : Nat
deriving DecidableEq, Repr

/-- Element of the `notifications` array; `postId` and `commentId` are the
optional properties of the object literal. -/
structure Notification where
  id : String
  userId : String
  type : String
  message : String
  postId : Option String
  commentId : Option String
  createdAt : Nat
  read : Bool
deriving DecidableEq, Repr

/-- The module-level arrays that the handlers read and write (`likes` and
`follows` are declared in the source but never used). -/
structure State where
  users : List User
  posts : List Post
  comments : List Comment
  notifications : List Notification
deriving DecidableEq, Repr

/-- All arrays empty, as at process start. -/
def State.empty : State := ⟨[], [], [], []⟩

/-- What the outside world supplies to one request: the successive results of
`uuidv4()` and of `new Date()` (as milliseconds), and the library functions. -/
structure Env where
  uuid : Nat → String
  now : Nat → Nat
  bcryptHash : String → String
  bcryptCompare : String → String → Bool
  toLowerCase : String → String

/-! ## Response bodies -/

/-- The `{ id, username, fullName, avatar }` object attached to posts. -/
structure UserSummary where
  id : String
  username : String
  fullName : String
  avatar : String
deriving DecidableEq, Repr

/-- The `user` object of the register and login responses. -/
structure AccountView where
  id : String
  username : String
  email : String
  fullName : String
  bio : String
  avatar : String
deriving DecidableEq, Repr

/-- The `user` object of the update-profile response. -/
structure ProfileView where
  id : String
  username : String
  fullName : String
  bio : String
  avatar : String
deriving DecidableEq, Repr

/-- Feed element: the post spread plus `user`, `likesCount`, `commentsCount`,
`isLiked`. -/
structure FeedEntry where
  post : Post
  user : UserSummary
  likesCount : Nat
  commentsCount : Nat
  isLiked : Bool
deriving DecidableEq, Repr

/-- Trending element: the post spread plus `user`, `likesCount`,
`commentsCount`. -/
structure TrendingEntry where
  post : Post
  user : UserSummary
  likesCount : Nat
  commentsCount : Nat
deriving DecidableEq, Repr

/-- Search post element: the post spread plus `user`. -/
structure SearchEntry where
  post : Post
  user : UserSummary
deriving DecidableEq, Repr

/-- Every response a handler can send. `error` carries the HTTP status and the
`error` string of the body; the other constructors are the success bodies. -/
inductive Response where
  | error (status : Nat) (msg : String)
  | registered (message : String) (user : AccountView) (tokenId tokenUsername : String)
  | loggedIn (message : String) (user : AccountView) (tokenId tokenUsername : String)
  | profileUpdated (message : String) (user : ProfileView)
  | postCreated (message : String) (post : Post)
  | feed (posts : List FeedEntry)
  | trending (posts : List TrendingEntry)
  | likeToggled (message : String) (likesCount : Nat) (isLiked : Bool)
  | commentAdded (message : String) (comment : Comment) (user : UserSummary)
  | followToggled (message : String) (isFollowing : Bool)
  | notificationList (items : List Notification)
  | markedRead (message : String)
  | searchResults (users : List UserSummary) (posts : List SearchEntry)
deriving DecidableEq, Repr

/-- A response with a 4xx or 5xx status. -/
def Response.isError : Response → Bool
  | .error _ _ => true
  | _ => false

/-- The 500 answer given when a handler throws. -/
def serverError : Response := .error 500 "Server error"

/-! ## JavaScript primitives used by the handlers -/

/-- JavaScript truthiness of a request field that is absent or a string. -/
def truthy : Option String → Bool
  | none => false
  | some v => v != ""

/-- Source expression `a || b` where `a` is an optional string field. -/
def orElse (a : Option String) (b : String) : String :=
  match a with
  | none => b
  | some v => if v = "" then b else v

/-- JavaScript `Array.prototype.find` followed by in-place mutation of the object found:
the first element satisfying `p` is replaced by its image under `f`. -/
def updateFirst {α : Type} (p : α → Bool) (f : α → α) : List α → List α
  | [] => []
  | x :: xs => if p x then f x :: xs else x :: updateFirst p f xs

/-- Source expression `xs.map(f)` where the callback may throw: `none` as soon as one call
throws. -/
def mapThrowing {α β : Type} (f : α → Option β) : List α → Option (List β)
  | [] => some []
  | x :: xs =>
    match f x with
    | none => none
    | some y =>
      match mapThrowing f xs with
      | none => none
      | some ys => some (y :: ys)

/-- JavaScript `Array.prototype.sort(cmp)`: a stable sort; `a` may stay in front of `b`
when `cmp(a, b) ≤ 0`. -/
def jsSort {α : Type} (cmp : α → α → Int) (l : List α) : List α :=
  l.insertionSort (fun a b => cmp a b ≤ 0)

/-- Source expression `arr.splice(arr.indexOf(x), 1)` for an `x` that occurs in `arr`. -/
def spliceAtIndexOf (arr : List String) (x : String) : List String :=
  arr.eraseIdx (arr.indexOf x)

/-- JavaScript `String.prototype.includes`. -/
def jsIncludes (s t : String) : Bool :=
  decide (t.data <:+: s.data)

/-- White space and line terminators removed by `String.prototype.trim`. -/
def isJsWhiteSpace (c : Char) : Bool :=
  c.val = 0x9 || c.val = 0xA || c.val = 0xB || c.val = 0xC || c.val = 0xD ||
  c.val = 0x20 || c.val = 0xA0 || c.val = 0x1680 ||
  (0x2000 ≤ c.val && c.val ≤ 0x200A) || c.val = 0x2028 || c.val = 0x2029 ||
  c.val = 0x202F || c.val = 0x205F || c.val = 0x3000 || c.val = 0xFEFF

/-- JavaScript `String.prototype.trim` on the character list. -/
def jsTrim (cs : List Char) : List Char :=
  ((cs.dropWhile isJsWhiteSpace).reverse.dropWhile isJsWhiteSpace).reverse

/-- Source expression `str.split(',')` on the character list. -/
def splitComma : List Char → List (List Char)
  | [] => [[]]
  | c :: cs =>
    if c = ',' then [] :: splitComma cs
    else
      match splitComma cs with
      | [] => [[c]]
      | h :: t => (c :: h) :: t

/-- Source expression `tags ? tags.split(',').map(tag => tag.trim()) : []`. -/
def parseTags (tags : Option String) : List String :=
  if truthy tags then
    (splitComma (tags.getD "").data).map (fun t => String.mk (jsTrim t))
  else []

/-- Helper `findUserById`. -/
def findUserById (users : List User) (id : String) : Option User :=
  users.find? (fun user => decide (user.id = id))

/-- Helper `findPostById`. -/
def findPostById (posts : List Post) (id : String) : Option Post :=
  posts.find? (fun post => decide (post.id = id))

/-- The `{ id, username, fullName, avatar }` projection of a user. -/
def summaryOf (u : User) : UserSummary :=
  ⟨u.id, u.username, u.fullName, u.avatar⟩

/-! ## Handlers -/

/-- First part of the handler of `POST /api/register`, up to `await bcrypt.hash`:
the required-field check and the two duplicate checks, made on the store as it is when the
request arrives. `none` when all three pass; the handler is then suspended until the hash
is computed, and the server handles other requests in the meantime. -/
def registerCheck (s : State) (username email password : Option String) : Option Response :=
  if !truthy username || !truthy email || !truthy password then
    some (.error 400 "Username, email, and password are required")
  else if (s.users.find? (fun user => decide (user.email = email.getD ""))).isSome then
    some (.error 400 "Email already registered")
  else if (s.users.find? (fun user => decide (user.username = username.getD ""))).isSome then
    some (.error 400 "Username already taken")
  else
    none

/-- Second part of the handler of `POST /api/register`, from the return of
`await bcrypt.hash` on: the new user is built and pushed onto the store as it is at that
moment, and the request is answered 201. The stored emails and usernames are not looked at
again. -/
def registerResume (env : Env) (s : State)
    (username email password fullName bio : Option String) : Response × State :=
  let newUser : User :=
    { id := env.uuid 0
      username := username.getD ""
      email := email.getD ""
      password := env.bcryptHash (password.getD "")
      fullName := orElse fullName (username.getD "")
      bio := orElse bio ""
      avatar := ""
      createdAt := env.now 0
      followers := []
      following := [] }
  (.registered "User registered successfully"
      ⟨newUser.id, newUser.username, newUser.email, newUser.fullName, newUser.bio,
        newUser.avatar⟩ newUser.id newUser.username,
    { s with users := s.users ++ [newUser] })

/-- Handler of `POST /api/register` when no other request is handled while it
waits for `bcrypt.hash`: the second part runs on the very store the checks were made on. -/
def register (env : Env) (s : State)
    (username email password fullName bio : Option String) : Response × State :=
  match registerCheck s username email password with
  | some response => (response, s)
  | none => registerResume env s username email password fullName bio

/-- Handler of `POST /api/login`. -/
def login (env : Env) (s : State) (email password : Option String) : Response × State :=
  if !truthy email || !truthy password then
    (.error 400 "Email and password are required", s)
  else
    match s.users.find? (fun u => decide (u.email = email.getD "")) with
    | none => (.error 400 "Invalid credentials", s)
    | some user =>
      if !env.bcryptCompare (password.getD "") user.password then
        (.error 400 "Invalid credentials", s)
      else
        (.loggedIn "Login successful"
            ⟨user.id, user.username, user.email, user.fullName, user.bio, user.avatar⟩
            user.id user.username, s)

/-- The three conditional assignments of `PUT /api/users/:id`. -/
def applyProfileFields (fullName bio file : Option String) (user : User) : User :=
  let u1 := if truthy fullName then { user with fullName := fullName.getD "" } else user
  let u2 := match bio with
    | some b => { u1 with bio := b }
    | none => u1
  match file with
  | some filename => { u2 with avatar := "/uploads/" ++ filename }
  | none => u2

/-- Handler of `PUT /api/users/:id`; `file` is `req.file.filename` when a file was sent. -/
def updateProfile (s : State) (caller id : String)
    (fullName bio file : Option String) : Response × State :=
  match findUserById s.users id with
  | none => (.error 404 "User not found", s)
  | some user =>
    if caller ≠ user.id then (.error 403 "Not authorized", s)
    else
      let user1 := applyProfileFields fullName bio file user
      (.profileUpdated "Profile updated successfully"
          ⟨user1.id, user1.username, user1.fullName, user1.bio, user1.avatar⟩,
        { s with
          users :=
            updateFirst (fun u => decide (u.id = id)) (applyProfileFields fullName bio file)
              s.users })

/-- The notification pushed for the `i`-th follower by `POST /api/posts`. -/
def newPostNotification (env : Env) (author : User) (postId : String)
    (i : Nat) (followerId : String) : Notification :=
  { id := env.uuid (i + 1)
    userId := followerId
    type := "new_post"
    message := author.username ++ " created a new post"
    postId := some postId
    commentId := none
    createdAt := env.now (i + 1)
    read := false }

/-- The media expression of `POST /api/posts`: the upload path of the file sent, or
the empty string. -/
def mediaPath : Option String → String
  | some filename => "/uploads/" ++ filename
  | none => ""

/-- The `newPost` object literal of `POST /api/posts`. -/
def newPostRecord (env : Env) (caller : String) (content tags file : Option String) : Post :=
  { id := env.uuid 0
    userId := caller
    content := orElse content ""
    media := mediaPath file
    tags := parseTags tags
    likes := []
    comments := []
    createdAt := env.now 0 }

/-- Handler of `POST /api/posts`; `file` is `req.file.filename` when a file was sent.
The post is pushed before the author is looked up, so a missing author makes
`user.followers` throw after the push; the `catch` answers 500. -/
def createPost (env : Env) (s : State) (caller : String)
    (content tags file : Option String) : Response × State :=
  if !truthy content && file.isNone then
    (.error 400 "Post content or media is required", s)
  else
    let newPost := newPostRecord env caller content tags file
    let s1 : State := { s with posts := s.posts ++ [newPost] }
    match findUserById s1.users caller with
    | none => (serverError, s1)
    | some user =>
      (.postCreated "Post created successfully" newPost,
        { s1 with
          notifications :=
            s1.notifications ++
              user.followers.enum.map
                (fun p => newPostNotification env user newPost.id p.1 p.2) })

/-- The object built for one post by the `map` of `GET /api/posts`; `none`
when `postUser` is `undefined` and `postUser.id` throws. -/
def feedEntry (users : List User) (userId : String) (post : Post) : Option FeedEntry :=
  match findUserById users post.userId with
  | none => none
  | some postUser =>
    some { post := post
           user := summaryOf postUser
           likesCount := post.likes.length
           commentsCount := post.comments.length
           isLiked := post.likes.contains userId }

/-- The comparator of the feed sort. -/
def feedCmp (a b : FeedEntry) : Int :=
  (b.post.createdAt : Int) - (a.post.createdAt : Int)

/-- Handler of `GET /api/posts` (the feed). -/
def feed (s : State) (caller : String) : Response × State :=
  match findUserById s.users caller with
  | none => (serverError, s)
  | some user =>
    let followingIds := caller :: user.following
    match mapThrowing (feedEntry s.users caller)
        (s.posts.filter (fun post => followingIds.contains post.userId)) with
    | none => (serverError, s)
    | some entries =>
      (.feed (jsSort feedCmp entries), s)

/-- The object built for one post by the `map` of `GET /api/posts/trending`. -/
def trendingEntry (users : List User) (post : Post) : Option TrendingEntry :=
  match findUserById users post.userId with
  | none => none
  | some postUser =>
    some { post := post
           user := summaryOf postUser
           likesCount := post.likes.length
           commentsCount := post.comments.length }

/-- The comparator of the trending sort. -/
def trendingCmp (a b : TrendingEntry) : Int :=
  ((b.post.likes.length + b.post.comments.length : Nat) : Int) -
    ((a.post.likes.length + a.post.comments.length : Nat) : Int)

/-- Handler of `GET /api/posts/trending`. `limitQuery` is the `limit` query parameter of
the request, which the handler never reads: the slice is `slice(0, 10)`. -/
def trending (s : State) (_limitQuery : Option Nat) : Response × State :=
  match mapThrowing (trendingEntry s.users) s.posts with
  | none => (serverError, s)
  | some entries => (.trending ((jsSort trendingCmp entries).take 10), s)

/-- The notification pushed by a like. -/
def likeNotification (env : Env) (liker : User) (post : Post) : Notification :=
  { id := env.uuid 0
    userId := post.userId
    type := "like"
    message := liker.username ++ " liked your post"
    postId := some post.id
    commentId := none
    createdAt := env.now 0
    read := false }

/-- Source expression `post.likes.push(userId)`. -/
def pushLike (userId : String) (post : Post) : Post :=
  { post with likes := post.likes ++ [userId] }

/-- Source expression `post.likes.splice(likeIndex, 1)` with
`likeIndex = post.likes.indexOf(userId)`. -/
def spliceLike (userId : String) (post : Post) : Post :=
  { post with likes := spliceAtIndexOf post.likes userId }

/-- Handler of `POST /api/posts/:id/like`. -/
def toggleLike (env : Env) (s : State) (caller postId : String) : Response × State :=
  match findPostById s.posts postId with
  | none => (.error 404 "Post not found", s)
  | some post =>
    if post.likes.indexOf caller = post.likes.length then
      -- `indexOf` returned -1
      let likes1 := post.likes ++ [caller]
      let s1 : State :=
        { s with
          posts :=
            updateFirst (fun p => decide (p.id = postId)) (pushLike caller) s.posts }
      if post.userId ≠ caller then
        match findUserById s1.users caller with
        | none => (serverError, s1)
        | some user =>
          (.likeToggled "Post liked" likes1.length true,
            { s1 with notifications := s1.notifications ++ [likeNotification env user post] })
      else (.likeToggled "Post liked" likes1.length true, s1)
    else
      (.likeToggled "Post unliked" (spliceAtIndexOf post.likes caller).length false,
        { s with
          posts :=
            updateFirst (fun p => decide (p.id = postId)) (spliceLike caller) s.posts })

/-- The notification pushed by a comment. -/
def commentNotification (env : Env) (commenter : User) (post : Post)
    (commentId : String) : Notification :=
  { id := env.uuid 1
    userId := post.userId
    type := "comment"
    message := commenter.username ++ " commented on your post"
    postId := some post.id
    commentId := some commentId
    createdAt := env.now 1
    read := false }

/-- The binding of the identifier `user` in the function scope of the comment
handler, where the response object is built. The only declaration,
`const user = findUserById(userId)`, is local to the block of the preceding
`if`, so at that point the identifier is unbound. -/
def commentHandlerOuterUser : Option User := none

/-- The last statement of the comment handler: reading `user.id` with `user`
unbound throws a `ReferenceError`, answered with status 500. -/
def commentResponse (newComment : Comment) : Response :=
  match commentHandlerOuterUser with
  | none => serverError
  | some user => .commentAdded "Comment added successfully" newComment (summaryOf user)

/-- Source expression `post.comments.push(newComment.id)`. -/
def pushComment (commentId : String) (post : Post) : Post :=
  { post with comments := post.comments ++ [commentId] }

/-- Handler of `POST /api/posts/:id/comments`. -/
def addComment (env : Env) (s : State) (caller postId : String)
    (content : Option String) : Response × State :=
  if !truthy content then (.error 400 "Comment content is required", s)
  else
    match findPostById s.posts postId with
    | none => (.error 404 "Post not found", s)
    | some post =>
      let newComment : Comment :=
        { id := env.uuid 0
          postId := postId
          userId := caller
          content := content.getD ""
          createdAt := env.now 0 }
      let s1 : State :=
        { s with
          comments := s.comments ++ [newComment]
          posts :=
            updateFirst (fun p => decide (p.id = postId)) (pushComment newComment.id) s.posts }
      if post.userId ≠ caller then
        match findUserById s1.users caller with
        | none => (serverError, s1)
        | some user =>
          (commentResponse newComment,
            { s1 with
              notifications :=
                s1.notifications ++ [commentNotification env user post newComment.id] })
      else (commentResponse newComment, s1)

/-- The notification pushed by a follow. -/
def followNotification (env : Env) (follower : User) (targetUserId : String) : Notification :=
  { id := env.uuid 0
    userId := targetUserId
    type := "follow"
    message := follower.username ++ " started following you"
    postId := none
    commentId := none
    createdAt := env.now 0
    read := false }

/-- Source expression `currentUser.following.push(targetUserId)`. -/
def pushFollowing (targetUserId : String) (u : User) : User :=
  { u with following := u.following ++ [targetUserId] }

/-- Source expression `targetUser.followers.push(currentUserId)`. -/
def pushFollower (currentUserId : String) (u : User) : User :=
  { u with followers := u.followers ++ [currentUserId] }

/-- Source expression
`currentUser.following = currentUser.following.filter(id => id !== targetUserId)`. -/
def dropFollowing (targetUserId : String) (u : User) : User :=
  { u with following := u.following.filter (fun id => id ≠ targetUserId) }

/-- Source expression
`targetUser.followers = targetUser.followers.filter(id => id !== currentUserId)`. -/
def dropFollower (currentUserId : String) (u : User) : User :=
  { u with followers := u.followers.filter (fun id => id ≠ currentUserId) }

/-- Handler of `POST /api/users/:id/follow`. -/
def toggleFollow (env : Env) (s : State) (caller target : String) : Response × State :=
  if target = caller then (.error 400 "Cannot follow yourself", s)
  else
    match findUserById s.users target, findUserById s.users caller with
    | some _, some currentUser =>
      if currentUser.following.contains target then
        (.followToggled "Unfollowed successfully" false,
          { s with
            users :=
              updateFirst (fun u => decide (u.id = target)) (dropFollower caller)
                (updateFirst (fun u => decide (u.id = caller)) (dropFollowing target) s.users) })
      else
        (.followToggled "Followed successfully" true,
          { s with
            users :=
              updateFirst (fun u => decide (u.id = target)) (pushFollower caller)
                (updateFirst (fun u => decide (u.id = caller)) (pushFollowing target) s.users)
            notifications := s.notifications ++ [followNotification env currentUser target] })
    | _, _ => (.error 404 "User not found", s)

/-- The comparator of the notification sort. -/
def notificationCmp (a b : Notification) : Int :=
  (b.createdAt : Int) - (a.createdAt : Int)

/-- Handler of `GET /api/notifications`. -/
def listNotifications (s : State) (caller : String) : Response × State :=
  (.notificationList
      (jsSort notificationCmp (s.notifications.filter (fun n => decide (n.userId = caller)))),
    s)

/-- Source expression `notification.read = true`. -/
def setRead (n : Notification) : Notification :=
  { n with read := true }

/-- Handler of `PUT /api/notifications/:id/read`. -/
def markRead (s : State) (caller id : String) : Response × State :=
  match s.notifications.find? (fun n => decide (n.id = id)) with
  | none => (.error 404 "Notification not found", s)
  | some notification =>
    if notification.userId ≠ caller then (.error 403 "Not authorized", s)
    else
      (.markedRead "Notification marked as read",
        { s with
          notifications :=
            updateFirst (fun n => decide (n.id = id)) setRead s.notifications })

/-- The object built for one matching post by `GET /api/search`. -/
def searchEntry (users : List User) (post : Post) : Option SearchEntry :=
  match findUserById users post.userId with
  | none => none
  | some postUser => some { post := post, user := summaryOf postUser }

/-- Handler of `GET /api/search`; `q` is `req.query.q`. -/
def search (env : Env) (s : State) (q : Option String) : Response × State :=
  if !truthy q then (.error 400 "Search query is required", s)
  else
    let searchTerm := env.toLowerCase (q.getD "")
    let matchingUsers :=
      (s.users.filter (fun user =>
        jsIncludes (env.toLowerCase user.username) searchTerm ||
          jsIncludes (env.toLowerCase user.fullName) searchTerm)).map summaryOf
    match mapThrowing (searchEntry s.users)
        (s.posts.filter (fun post =>
          jsIncludes (env.toLowerCase post.content) searchTerm ||
            post.tags.any (fun tag => jsIncludes (env.toLowerCase tag) searchTerm))) with
    | none => (serverError, s)
    | some matchingPosts => (.searchResults matchingUsers matchingPosts, s)

/-! ## Requests and reachable stores -/

/-- One request to the server: the route with its inputs. `caller` is the
`id` of the verified token payload (`req.user.id`). -/
inductive Request where
  | register (username email password fullName bio : Option String)
  | login (email password : Option String)
  | updateProfile (caller id : String) (fullName bio file : Option String)
  | createPost (caller : String) (content tags file : Option String)
  | feed (caller : String)
  | trending (limitQuery : Option Nat)
  | toggleLike (caller postId : String)
  | addComment (caller postId : String) (content : Option String)
  | toggleFollow (caller target : String)
  | listNotifications (caller : String)
  | markRead (caller id : String)
  | search (q : Option String)

/-- The server's reaction to one request. -/
def handle (env : Env) (s : State) : Request → Response × State
  | .register username email password fullName bio =>
    register env s username email password fullName bio
  | .login email password => login env s email password
  | .updateProfile caller id fullName bio file => updateProfile s caller id fullName bio file
  | .createPost caller content tags file => createPost env s caller content tags file
  | .feed caller => feed s caller
  | .trending limitQuery => trending s limitQuery
  | .toggleLike caller postId => toggleLike env s caller postId
  | .addComment caller postId content => addComment env s caller postId content
  | .toggleFollow caller target => toggleFollow env s caller target
  | .listNotifications caller => listNotifications s caller
  | .markRead caller id => markRead s caller id
  | .search q => search env s q

/-- Stores the server can be in: the empty store, and whatever a request
leaves behind (whatever its inputs and its response). Every handler runs from start to end
without another request in between, except the register handler, which is suspended at
`await bcrypt.hash`: `step` with a register request is a registration during whose wait
nothing else is handled, and `resume` is the second part of a registration whose checks
passed on an earlier store (which takes non-empty username, email and password, and is
possible for any such registration, since it may have arrived before every other request)
and whose wait ends on the store `s`. -/
inductive Reachable : State → Prop where
  | init : Reachable State.empty
  | step {s : State} (h : Reachable s) (env : Env) (r : Request) :
      Reachable (handle env s r).2
  | resume {s : State} (h : Reachable s) (env : Env)
      (username email password fullName bio : Option String)
      (hc : registerCheck State.empty username email password = none) :
      Reachable (registerResume env s username email password fullName bio).2

/-- The store after a sequence of requests, each with its own environment. -/
def run (s : State) : List (Env × Request) → State
  | [] => s
  | (env, r) :: rest => run (handle env s r).2 rest

/-! ## Store invariants -/

/-- Consistency of the follow lists, read through `findUserById`: the two
sides of each follow relation agree, every listed id is registered, and nobody
lists itself. -/
structure UsersOK (users : List User) : Prop where
  pair : ∀ a b ua ub, findUserById users a = some ua → findUserById users b = some ub →
    (b ∈ ua.following ↔ a ∈ ub.followers)
  followingRegistered : ∀ a ua, findUserById users a = some ua →
    ∀ x ∈ ua.following, (findUserById users x).isSome
  followersRegistered : ∀ a ua, findUserById users a = some ua →
    ∀ x ∈ ua.followers, (findUserById users x).isSome
  notSelf : ∀ a ua, findUserById users a = some ua → a ∉ ua.following ∧ a ∉ ua.followers

/-- No post found by `findPostById` lists a liker twice. -/
def PostsOK (posts : List Post) : Prop :=
  ∀ id p, findPostById posts id = some p → p.likes.Nodup

/-- The invariants kept by every request. -/
structure WellFormed (s : State) : Prop where
  users : UsersOK s.users
  posts : PostsOK s.posts

/-! ## Sample data -/

/-- A request environment whose `k`-th identifier is `k + 1` copies of `c` and
whose clock starts at `t`. -/
def sampleEnv (c : Char) (t : Nat) : Env :=
  { uuid := fun k => String.mk (List.replicate (k + 1) c)
    now := fun k => t + k
    bcryptHash := fun p => "hashed:" ++ p
    bcryptCompare := fun p h => decide (h = "hashed:" ++ p)
    toLowerCase := fun v => String.mk (v.data.map Char.toLower) }

/-- Registration of alice (id `a`) and of bob (id `b`). -/
def aliceBobRequests : List (Env × Request) :=
  [(sampleEnv 'a' 10, .register (some "alice") (some "alice@example.org") (some "pw1") none none),
   (sampleEnv 'b' 20, .register (some "bob") (some "bob@example.org") (some "pw2") none none)]

/-- The store with alice and bob registered. -/
def aliceBobState : State := run State.empty aliceBobRequests

/-- The scenario of the specification: register alice, register bob, bob
follows alice, alice creates the post `hi` (id `d`). -/
def scenarioRequests : List (Env × Request) :=
  aliceBobRequests ++
    [(sampleEnv 'c' 30, .toggleFollow "b" "a"),
     (sampleEnv 'd' 40, .createPost "a" (some "hi") none none)]

/-- The store at the end of the scenario. -/
def scenarioState : State := run State.empty scenarioRequests

/-- Engagement score of a post: number of likers plus number of comment ids. -/
def postScore (p : Post) : Nat := p.likes.length + p.comments.length

/-- The post list stably sorted by score, highest first. -/
def rankedPosts (posts : List Post) : List Post :=
  posts.insertionSort (fun p q => postScore q ≤ postScore p)

/-- Store left by a create-post call whose caller id belongs to no user: the
call is answered 500 but the post stays. -/
def ghostPostState : State :=
  run State.empty [(sampleEnv 'g' 5, .createPost "ghost" (some "boo") none none)]

/-- Store with alice registered and two posts of hers. -/
def twoPostState : State :=
  run State.empty
    [(sampleEnv 'a' 10, .register (some "alice") (some "alice@example.org") (some "pw1") none none),
     (sampleEnv 'p' 20, .createPost "a" (some "first") none none),
     (sampleEnv 'q' 30, .createPost "a" (some "second") none none)]

/-- The scenario with arbitrary environments: register alice, register bob,
bob follows alice, alice creates the post `hi`. -/
def scenarioWith (env1 env2 env3 env4 : Env) : List (Env × Request) :=
  [(env1, .register (some "alice") (some "alice@example.org") (some "pw1") none none),
   (env2, .register (some "bob") (some "bob@example.org") (some "pw2") none none),
   (env3, .toggleFollow (env2.uuid 0) (env1.uuid 0)),
   (env4, .createPost (env1.uuid 0) (some "hi") none none)]

/-- No two stored users share an email, and no two share a username. -/
def UniqueAccounts (users : List User) : Prop :=
  (users.map User.email).Nodup ∧ (users.map User.username).Nodup

/-- The user record built by a successful registration. -/
def newUserRecord (env : Env) (username email password fullName bio : Option String) : User :=
  { id := env.uuid 0
    username := username.getD ""
    email := email.getD ""
    password := env.bcryptHash (password.getD "")
    fullName := orElse fullName (username.getD "")
    bio := orElse bio ""
    avatar := ""
    createdAt := env.now 0
    followers := []
    following := [] }

/-- The lookup `notifications.find(n => n.id === id)` of the mark-read handler. -/
def findNotificationById (notifications : List Notification) (id : String) :
    Option Notification :=
  notifications.find? (fun n => decide (n.id = id))

/-- Store in which alice (id `a`) has two follow notifications created at the
same time 50: bob's (id `x`) stored first, carol's (id `y`) second. -/
def tiedNotificationsState : State :=
  run State.empty
    [(sampleEnv 'a' 10, .register (some "alice") (some "alice@example.org") (some "pw1") none none),
     (sampleEnv 'b' 20, .register (some "bob") (some "bob@example.org") (some "pw2") none none),
     (sampleEnv 'c' 30, .register (some "carol") (some "carol@example.org") (some "pw3") none none),
     (sampleEnv 'x' 50, .toggleFollow "b" "a"),
     (sampleEnv 'y' 50, .toggleFollow "c" "a")]

/-- The caller id (`req.user.id`) of a request to a route that writes to the
store; `none` for register and login, which take no token, and for the reads. -/
def Request.mutatingCaller : Request → Option String
  | .updateProfile caller _ _ _ _ => some caller
  | .createPost caller _ _ _ => some caller
  | .toggleLike caller _ => some caller
  | .addComment caller _ _ => some caller
  | .toggleFollow caller _ => some caller
  | .markRead caller _ => some caller
  | _ => none

/-- Stores the server can be in when every writing request is made with the
id of a user registered at that moment; `resume` is as in `Reachable` (register takes no
token). -/
inductive ReachableAuth : State → Prop where
  | init : ReachableAuth State.empty
  | step {s : State} (h : ReachableAuth s) (env : Env) (r : Request)
      (hc : ∀ c, r.mutatingCaller = some c → (findUserById s.users c).isSome = true) :
      ReachableAuth (handle env s r).2
  | resume {s : State} (h : ReachableAuth s) (env : Env)
      (username email password fullName bio : Option String)
      (hc : registerCheck State.empty username email password = none) :
      ReachableAuth (registerResume env s username email password fullName bio).2

/-- Every stored post's owner id belongs to a registered user. -/
def OwnersRegistered (s : State) : Prop :=
  ∀ x ∈ s.posts.map Post.userId, (findUserById s.users x).isSome = true

/-- The filter of the user search. -/
def userMatches (env : Env) (q : String) (user : User) : Bool :=
  jsIncludes (env.toLowerCase user.username) (env.toLowerCase q) ||
    jsIncludes (env.toLowerCase user.fullName) (env.toLowerCase q)

/-- The filter of the post search. -/
def postMatches (env : Env) (q : String) (post : Post) : Bool :=
  jsIncludes (env.toLowerCase post.content) (env.toLowerCase q) ||
    post.tags.any (fun tag => jsIncludes (env.toLowerCase tag) (env.toLowerCase q))

/-- Requests of the scenario followed by bob's post `Hello World` tagged `News`. -/
def searchRequests : List (Env × Request) :=
  scenarioRequests ++
    [(sampleEnv 'e' 50, .createPost "b" (some "Hello World") (some "News, misc") none)]

/-- Requests of the scenario followed by bob's later post `yo` (id `e`, time 50). -/
def twoAuthorRequests : List (Env × Request) :=
  scenarioRequests ++ [(sampleEnv 'e' 50, .createPost "b" (some "yo") none none)]

/-- Every stored post's owner id, every stored comment's author id and every
stored notification's recipient id belongs to a registered user. -/
def ReferencesRegistered (s : State) : Prop :=
  (∀ p ∈ s.posts, (findUserById s.users p.userId).isSome = true) ∧
  (∀ c ∈ s.comments, (findUserById s.users c.userId).isSome = true) ∧
  (∀ n ∈ s.notifications, (findUserById s.users n.userId).isSome = true)

/-- A registration suspended at `await bcrypt.hash`, with the body fields it was
made with. -/
structure PendingRegistration where
  username : Option String
  email : Option String
  password : Option String
  fullName : Option String
  bio : Option String
deriving DecidableEq, Repr

/-- The server between two stretches of work of its single thread: the store, and
the registrations that have passed their checks and wait for their password hash. -/
structure Server where
  store : State
  pending : List PendingRegistration
deriving DecidableEq, Repr

/-- The server at process start. -/
def Server.start : Server := ⟨State.empty, []⟩

/-- One stretch of work that nothing interrupts: a request handled from start to
end (for register: with nothing else handled during its wait), the arrival of a register
request (the first part of its handler), or the return of the password hash of the `k`-th
waiting registration (the second part of its handler). -/
inductive Event where
  | request (env : Env) (r : Request)
  | registerArrives (username email password fullName bio : Option String)
  | hashReturns (env : Env) (k : Nat)

/-- The response sent during one stretch of work, if one is sent, and the server
afterwards. A register request that passes its checks is not answered yet; the return of a
hash nobody waits for is no event of the server and changes nothing. -/
def Server.react (v : Server) : Event → Option Response × Server
  | .request env r => (some (handle env v.store r).1, ⟨(handle env v.store r).2, v.pending⟩)
  | .registerArrives username email password fullName bio =>
    match registerCheck v.store username email password with
    | some response => (some response, v)
    | none => (none, ⟨v.store, v.pending ++ [⟨username, email, password, fullName, bio⟩]⟩)
  | .hashReturns env k =>
    match v.pending.get? k with
    | none => (none, v)
    | some reg =>
      (some (registerResume env v.store reg.username reg.email reg.password reg.fullName
          reg.bio).1,
        ⟨(registerResume env v.store reg.username reg.email reg.password reg.fullName
            reg.bio).2,
          v.pending.eraseIdx k⟩)

/-- The responses sent during a sequence of stretches of work, and the server
afterwards. -/
def Server.runEvents (v : Server) : List Event → List (Option Response) × Server
  | [] => ([], v)
  | e :: rest =>
    ((v.react e).1 :: (Server.runEvents (v.react e).2 rest).1,
      (Server.runEvents (v.react e).2 rest).2)

/-- Two register requests with the same username, email and password fields, the
second arriving while the first waits for its password hash; then the two hashes return. -/
def overlappingRegistrations : List Event :=
  [.registerArrives (some "alice") (some "alice@example.org") (some "pw1") none none,
   .registerArrives (some "alice") (some "alice@example.org") (some "pw1") none none,
   .hashReturns (sampleEnv 'a' 10) 0,
   .hashReturns (sampleEnv 'b' 20) 0]

/-- The same two register requests, each handled to its end before the next. -/
def successiveRegistrations : List Event :=
  [.request (sampleEnv 'a' 10)
      (.register (some "alice") (some "alice@example.org") (some "pw1") none none),
   .request (sampleEnv 'b' 20)
      (.register (some "alice") (some "alice@example.org") (some "pw1") none none)]

/-! ## Lookup and invariant lemmas -/

theorem register_unfold (env : Env) (s : State)
    (username email password fullName bio : Option String) :
    register env s username email password fullName bio =
      if !truthy username || !truthy email || !truthy password then
        (.error 400 "Username, email, and password are required", s)
      else if (s.users.find? (fun user => decide (user.email = email.getD ""))).isSome then
        (.error 400 "Email already registered", s)
      else if (s.users.find? (fun user => decide (user.username = username.getD ""))).isSome then
        (.error 400 "Username already taken", s)
      else
        let newUser : User :=
          { id := env.uuid 0
            username := username.getD ""
            email := email.getD ""
            password := env.bcryptHash (password.getD "")
            fullName := orElse fullName (username.getD "")
            bio := orElse bio ""
            avatar := ""
            createdAt := env.now 0
            followers := []
            following := [] }
        (.registered "User registered successfully"
            ⟨newUser.id, newUser.username, newUser.email, newUser.fullName, newUser.bio,
              newUser.avatar⟩ newUser.id newUser.username,
          { s with users := s.users ++ [newUser] }) := by
  unfold register registerCheck registerResume
  split_ifs <;> rfl

theorem registerResume_state (env : Env) (s : State)
    (username email password fullName bio : Option String) :
    (registerResume env s username email password fullName bio).2 =
      { s with
        users := s.users ++ [newUserRecord env username email password fullName bio] } :=
  rfl

theorem registerCheck_fields {s : State} {username email password : Option String}
    (h : registerCheck s username email password = none) :
    (!truthy username || !truthy email || !truthy password) = false := by
  unfold registerCheck at h
  split_ifs at h with h1
  simpa using h1

theorem find?_updateFirst_key {α : Type} (key : α → String) (f : α → α)
    (hf : ∀ a, key (f a) = key a) (x y : String) (l : List α) :
    (updateFirst (fun a => decide (key a = x)) f l).find? (fun a => decide (key a = y)) =
      if y = x then (l.find? (fun a => decide (key a = y))).map f
      else l.find? (fun a => decide (key a = y)) := by
  induction l with
  | nil => simp [updateFirst]
  | cons a l ih =>
    by_cases hax : key a = x
    · subst hax
      by_cases hyx : y = key a
      · subst hyx
        simp [updateFirst, hf, List.find?_cons]
      · have hay : ¬ key a = y := fun h => hyx h.symm
        simp [updateFirst, hf, List.find?_cons, hyx, hay]
    · by_cases hay : key a = y
      · subst hay
        have hyx : ¬ key a = x := hax
        simp [updateFirst, hax, List.find?_cons]
      · simp [updateFirst, hax, List.find?_cons, hay, ih]

theorem findUserById_updateFirst (f : User → User) (hf : ∀ u, (f u).id = u.id)
    (x y : String) (users : List User) :
    findUserById (updateFirst (fun u => decide (u.id = x)) f users) y =
      if y = x then (findUserById users y).map f else findUserById users y :=
  find?_updateFirst_key User.id f hf x y users

theorem findPostById_updateFirst (f : Post → Post) (hf : ∀ p, (f p).id = p.id)
    (x y : String) (posts : List Post) :
    findPostById (updateFirst (fun p => decide (p.id = x)) f posts) y =
      if y = x then (findPostById posts y).map f else findPostById posts y :=
  find?_updateFirst_key Post.id f hf x y posts

theorem findUserById_id {users : List User} {x : String} {u : User}
    (h : findUserById users x = some u) : u.id = x := by
  have := List.find?_some h
  simpa using this

theorem findPostById_id {posts : List Post} {x : String} {p : Post}
    (h : findPostById posts x = some p) : p.id = x := by
  have := List.find?_some h
  simpa using this

theorem findUserById_append (users : List User) (u : User) (y : String) :
    findUserById (users ++ [u]) y =
      (findUserById users y).or (if u.id = y then some u else none) := by
  unfold findUserById
  rw [List.find?_append]
  by_cases h : u.id = y <;> simp [List.find?_cons, h]

theorem findPostById_append (posts : List Post) (p : Post) (y : String) :
    findPostById (posts ++ [p]) y =
      (findPostById posts y).or (if p.id = y then some p else none) := by
  unfold findPostById
  rw [List.find?_append]
  by_cases h : p.id = y <;> simp [List.find?_cons, h]


theorem usersOK_nil : UsersOK [] :=
  ⟨by simp [findUserById], by simp [findUserById], by simp [findUserById],
    by simp [findUserById]⟩

theorem usersOK_of_pointwise (users : List User) {users1 : List User}
    (g : String → User → User)
    (hfind : ∀ y, findUserById users1 y = (findUserById users y).map (g y))
    (hpair : ∀ a b ua ub, findUserById users a = some ua → findUserById users b = some ub →
      (b ∈ (g a ua).following ↔ a ∈ (g b ub).followers))
    (hfing : ∀ a ua, findUserById users a = some ua →
      ∀ x ∈ (g a ua).following, (findUserById users x).isSome ∧ x ≠ a)
    (hfers : ∀ a ua, findUserById users a = some ua →
      ∀ x ∈ (g a ua).followers, (findUserById users x).isSome ∧ x ≠ a) :
    UsersOK users1 := by
  have hsome : ∀ x, (findUserById users x).isSome → (findUserById users1 x).isSome := by
    intro x hx
    rw [hfind x]
    simpa using hx
  have hback : ∀ a ua1, findUserById users1 a = some ua1 →
      ∃ ua, findUserById users a = some ua ∧ ua1 = g a ua := by
    intro a ua1 h1
    rw [hfind a] at h1
    cases hu : findUserById users a with
    | none => simp [hu] at h1
    | some ua => exact ⟨ua, rfl, by simpa [hu] using h1.symm⟩
  refine ⟨?_, ?_, ?_, ?_⟩
  · intro a b ua1 ub1 ha hb
    obtain ⟨ua, hua, rfl⟩ := hback a ua1 ha
    obtain ⟨ub, hub, rfl⟩ := hback b ub1 hb
    exact hpair a b ua ub hua hub
  · intro a ua1 ha x hx
    obtain ⟨ua, hua, rfl⟩ := hback a ua1 ha
    exact hsome x (hfing a ua hua x hx).1
  · intro a ua1 ha x hx
    obtain ⟨ua, hua, rfl⟩ := hback a ua1 ha
    exact hsome x (hfers a ua hua x hx).1
  · intro a ua1 ha
    obtain ⟨ua, hua, rfl⟩ := hback a ua1 ha
    exact ⟨fun hx => (hfing a ua hua a hx).2 rfl, fun hx => (hfers a ua hua a hx).2 rfl⟩

theorem usersOK_append {users : List User} (h : UsersOK users) (u : User)
    (hfers : u.followers = []) (hfing : u.following = []) : UsersOK (users ++ [u]) := by
  have hsome : ∀ x, (findUserById users x).isSome → (findUserById (users ++ [u]) x).isSome := by
    intro x hx
    rw [findUserById_append]
    cases hu : findUserById users x with
    | none => simp [hu] at hx
    | some v => simp
  have hback : ∀ a ua, findUserById (users ++ [u]) a = some ua →
      findUserById users a = some ua ∨ (findUserById users a = none ∧ ua = u) := by
    intro a ua h1
    rw [findUserById_append] at h1
    cases hu : findUserById users a with
    | none =>
      right
      refine ⟨rfl, ?_⟩
      by_cases hid : u.id = a
      · simpa [hu, hid] using h1.symm
      · simp [hu, hid] at h1
    | some v =>
      left
      simpa [hu] using h1
  refine ⟨?_, ?_, ?_, ?_⟩
  · intro a b ua ub ha hb
    rcases hback a ua ha with ha1 | ⟨ha1, rfl⟩ <;> rcases hback b ub hb with hb1 | ⟨hb1, rfl⟩
    · exact h.pair a b ua ub ha1 hb1
    · constructor
      · intro hx
        have := h.followingRegistered a ua ha1 b hx
        simp [hb1] at this
      · intro hx
        simp [hfers] at hx
    · constructor
      · intro hx
        simp [hfing] at hx
      · intro hx
        have := h.followersRegistered b ub hb1 a hx
        simp [ha1] at this
    · simp [hfers, hfing]
  · intro a ua ha x hx
    rcases hback a ua ha with ha1 | ⟨_, rfl⟩
    · exact hsome x (h.followingRegistered a ua ha1 x hx)
    · simp [hfing] at hx
  · intro a ua ha x hx
    rcases hback a ua ha with ha1 | ⟨_, rfl⟩
    · exact hsome x (h.followersRegistered a ua ha1 x hx)
    · simp [hfers] at hx
  · intro a ua ha
    rcases hback a ua ha with ha1 | ⟨_, rfl⟩
    · exact h.notSelf a ua ha1
    · simp [hfers, hfing]


theorem register_users (env : Env) (s : State) (username email password fullName bio : Option String) :
    (register env s username email password fullName bio).2.users = s.users ∨
    ∃ u : User, u.followers = [] ∧ u.following = [] ∧
      (register env s username email password fullName bio).2.users = s.users ++ [u] := by
  rw [register_unfold]
  split_ifs
  · exact Or.inl rfl
  · exact Or.inl rfl
  · exact Or.inl rfl
  · exact Or.inr ⟨_, rfl, rfl, rfl⟩

theorem applyProfileFields_id (fullName bio file : Option String) (u : User) :
    (applyProfileFields fullName bio file u).id = u.id := by
  unfold applyProfileFields
  cases bio <;> cases file <;> simp <;> split_ifs <;> rfl

theorem applyProfileFields_followers (fullName bio file : Option String) (u : User) :
    (applyProfileFields fullName bio file u).followers = u.followers := by
  unfold applyProfileFields
  cases bio <;> cases file <;> simp <;> split_ifs <;> rfl

theorem applyProfileFields_following (fullName bio file : Option String) (u : User) :
    (applyProfileFields fullName bio file u).following = u.following := by
  unfold applyProfileFields
  cases bio <;> cases file <;> simp <;> split_ifs <;> rfl

theorem updateProfile_usersOK (s : State) (caller id : String) (fullName bio file : Option String)
    (h : UsersOK s.users) : UsersOK (updateProfile s caller id fullName bio file).2.users := by
  unfold updateProfile
  cases hu : findUserById s.users id with
  | none => simpa using h
  | some user =>
    by_cases hc : caller = user.id
    · simp only [hc, ne_eq, not_true_eq_false, if_false]
      refine usersOK_of_pointwise s.users
        (fun y u => if y = id then applyProfileFields fullName bio file u else u) ?_ ?_ ?_ ?_
      · intro y
        rw [findUserById_updateFirst _ (applyProfileFields_id fullName bio file)]
        by_cases hy : y = id <;> simp [hy]
      · intro a b ua ub ha hb
        have := h.pair a b ua ub ha hb
        by_cases h1 : a = id <;> by_cases h2 : b = id <;>
          simpa [h1, h2, applyProfileFields_followers, applyProfileFields_following] using this
      · intro a ua ha x hx
        have hx1 : x ∈ ua.following := by
          by_cases h1 : a = id <;> simpa [h1, applyProfileFields_following] using hx
        exact ⟨h.followingRegistered a ua ha x hx1, fun e => (h.notSelf a ua ha).1 (e ▸ hx1)⟩
      · intro a ua ha x hx
        have hx1 : x ∈ ua.followers := by
          by_cases h1 : a = id <;> simpa [h1, applyProfileFields_followers] using hx
        exact ⟨h.followersRegistered a ua ha x hx1, fun e => (h.notSelf a ua ha).2 (e ▸ hx1)⟩
    · simpa [hc] using h

theorem toggleFollow_find_unfollow (users : List User) (caller target y : String) :
    findUserById
        (updateFirst (fun u => decide (u.id = target)) (dropFollower caller)
          (updateFirst (fun u => decide (u.id = caller)) (dropFollowing target) users)) y =
      (findUserById users y).map (fun u =>
        (if y = target then dropFollower caller else id)
          ((if y = caller then dropFollowing target else id) u)) := by
  rw [findUserById_updateFirst (dropFollower caller) (fun _ => rfl),
    findUserById_updateFirst (dropFollowing target) (fun _ => rfl)]
  cases findUserById users y <;> split_ifs <;> rfl

theorem toggleFollow_find_follow (users : List User) (caller target y : String) :
    findUserById
        (updateFirst (fun u => decide (u.id = target)) (pushFollower caller)
          (updateFirst (fun u => decide (u.id = caller)) (pushFollowing target) users)) y =
      (findUserById users y).map (fun u =>
        (if y = target then pushFollower caller else id)
          ((if y = caller then pushFollowing target else id) u)) := by
  rw [findUserById_updateFirst (pushFollower caller) (fun _ => rfl),
    findUserById_updateFirst (pushFollowing target) (fun _ => rfl)]
  cases findUserById users y <;> split_ifs <;> rfl

theorem toggleFollow_usersOK (env : Env) (s : State) (caller target : String)
    (h : UsersOK s.users) : UsersOK (toggleFollow env s caller target).2.users := by
  unfold toggleFollow
  by_cases hne : target = caller
  · simpa [hne] using h
  · have hne1 : ¬ caller = target := fun e => hne e.symm
    simp only [hne, if_false]
    cases ht : findUserById s.users target with
    | none => simpa using h
    | some tu =>
      cases hc : findUserById s.users caller with
      | none => simpa using h
      | some cu =>
        simp only []
        by_cases hf : cu.following.contains target = true
        · simp only [hf, if_true]
          refine usersOK_of_pointwise s.users _ (toggleFollow_find_unfollow s.users caller target)
            ?_ ?_ ?_
          · intro a b ua ub ha hb
            have := h.pair a b ua ub ha hb
            by_cases h1 : a = caller <;> by_cases h2 : b = target <;>
              by_cases h3 : a = target <;> by_cases h4 : b = caller <;>
              simp_all [dropFollower, dropFollowing]
          · intro a ua ha x hx
            have hx1 : x ∈ ua.following := by
              by_cases h1 : a = caller <;> by_cases h3 : a = target <;>
                simp_all [dropFollower, dropFollowing]
            exact ⟨h.followingRegistered a ua ha x hx1, fun e => (h.notSelf a ua ha).1 (e ▸ hx1)⟩
          · intro a ua ha x hx
            have hx1 : x ∈ ua.followers := by
              by_cases h1 : a = caller <;> by_cases h3 : a = target <;>
                simp_all [dropFollower, dropFollowing]
            exact ⟨h.followersRegistered a ua ha x hx1, fun e => (h.notSelf a ua ha).2 (e ▸ hx1)⟩
        · simp only [hf, if_false]
          refine usersOK_of_pointwise s.users _ (toggleFollow_find_follow s.users caller target)
            ?_ ?_ ?_
          · intro a b ua ub ha hb
            have := h.pair a b ua ub ha hb
            by_cases h1 : a = caller <;> by_cases h2 : b = target <;>
              by_cases h3 : a = target <;> by_cases h4 : b = caller <;>
              simp_all [pushFollower, pushFollowing]
          · intro a ua ha x hx
            have hx1 : x ∈ ua.following ∨ (a = caller ∧ x = target) := by
              by_cases h1 : a = caller <;> by_cases h3 : a = target <;>
                simp_all [pushFollower, pushFollowing]
            rcases hx1 with hx1 | ⟨rfl, rfl⟩
            · exact ⟨h.followingRegistered a ua ha x hx1,
                fun e => (h.notSelf a ua ha).1 (e ▸ hx1)⟩
            · exact ⟨by simp [ht], hne⟩
          · intro a ua ha x hx
            have hx1 : x ∈ ua.followers ∨ (a = target ∧ x = caller) := by
              by_cases h1 : a = caller <;> by_cases h3 : a = target <;>
                simp_all [pushFollower, pushFollowing]
            rcases hx1 with hx1 | ⟨rfl, rfl⟩
            · exact ⟨h.followersRegistered a ua ha x hx1,
                fun e => (h.notSelf a ua ha).2 (e ▸ hx1)⟩
            · exact ⟨by simp [hc], hne1⟩


theorem spliceAtIndexOf_eq_erase (arr : List String) (x : String) :
    spliceAtIndexOf arr x = arr.erase x := by
  simp [spliceAtIndexOf]

theorem postsOK_updateFirst {posts : List Post} (h : PostsOK posts) (x : String)
    (f : Post → Post) (hid : ∀ p, (f p).id = p.id)
    (hf : ∀ p, findPostById posts x = some p → (f p).likes.Nodup) :
    PostsOK (updateFirst (fun p => decide (p.id = x)) f posts) := by
  intro y p hp
  rw [findPostById_updateFirst f hid] at hp
  by_cases hy : y = x
  · subst hy
    cases hq : findPostById posts y with
    | none => simp [hq] at hp
    | some q =>
      have : p = f q := by simpa [hq] using hp.symm
      exact this ▸ hf q hq
  · simp only [hy, if_false] at hp
    exact h y p hp

theorem postsOK_append {posts : List Post} (h : PostsOK posts) (p : Post)
    (hp : p.likes = []) : PostsOK (posts ++ [p]) := by
  intro y q hq
  rw [findPostById_append] at hq
  cases hf : findPostById posts y with
  | none =>
    by_cases hid : p.id = y
    · have : q = p := by simpa [hf, hid] using hq.symm
      simp [this, hp]
    · simp [hf, hid] at hq
  | some r =>
    have : r = q := by simpa [hf] using hq
    exact this ▸ h y r hf

theorem toggleLike_users (env : Env) (s : State) (caller postId : String) :
    (toggleLike env s caller postId).2.users = s.users := by
  unfold toggleLike
  cases findPostById s.posts postId with
  | none => rfl
  | some post =>
    simp only []
    split_ifs
    · cases findUserById s.users caller <;> rfl
    · rfl
    · rfl

theorem toggleLike_posts (env : Env) (s : State) (caller postId : String) :
    (toggleLike env s caller postId).2.posts =
      match findPostById s.posts postId with
      | none => s.posts
      | some post =>
        if caller ∈ post.likes then
          updateFirst (fun p => decide (p.id = postId)) (spliceLike caller) s.posts
        else updateFirst (fun p => decide (p.id = postId)) (pushLike caller) s.posts := by
  unfold toggleLike
  cases findPostById s.posts postId with
  | none => rfl
  | some post =>
    simp only []
    by_cases hm : caller ∈ post.likes
    · have : ¬ List.indexOf caller post.likes = post.likes.length := by
        rw [List.indexOf_eq_length]
        exact not_not.mpr hm
      simp [this, hm]
    · have : List.indexOf caller post.likes = post.likes.length :=
        List.indexOf_eq_length.mpr hm
      simp only [this, if_true, hm, if_false]
      split_ifs
      · cases findUserById s.users caller <;> rfl
      · rfl

theorem toggleLike_postsOK (env : Env) (s : State) (caller postId : String)
    (h : PostsOK s.posts) : PostsOK (toggleLike env s caller postId).2.posts := by
  rw [toggleLike_posts]
  cases hp : findPostById s.posts postId with
  | none => exact h
  | some post =>
    simp only []
    split_ifs with hm
    · refine postsOK_updateFirst h postId _ (fun _ => rfl) ?_
      intro p hp1
      simp only [spliceLike, spliceAtIndexOf_eq_erase]
      exact (h postId p hp1).erase caller
    · refine postsOK_updateFirst h postId _ (fun _ => rfl) ?_
      intro p hp1
      have hpp : p = post := by simpa [hp] using hp1.symm
      subst hpp
      simp only [pushLike]
      rw [List.nodup_append]
      exact ⟨h postId p hp1, List.nodup_singleton _, by simpa using hm⟩

theorem addComment_users (env : Env) (s : State) (caller postId : String)
    (content : Option String) : (addComment env s caller postId content).2.users = s.users := by
  unfold addComment
  split_ifs
  · rfl
  · cases findPostById s.posts postId with
    | none => rfl
    | some post =>
      simp only []
      split_ifs
      · cases findUserById s.users caller <;> rfl
      · rfl

theorem addComment_postsOK (env : Env) (s : State) (caller postId : String)
    (content : Option String) (h : PostsOK s.posts) :
    PostsOK (addComment env s caller postId content).2.posts := by
  unfold addComment
  split_ifs
  · exact h
  · cases hp : findPostById s.posts postId with
    | none => exact h
    | some post =>
      have key : PostsOK (updateFirst (fun p => decide (p.id = postId))
          (pushComment (env.uuid 0)) s.posts) :=
        postsOK_updateFirst h postId _ (fun _ => rfl) (fun p hp1 => h postId p hp1)
      simp only []
      split_ifs
      · cases findUserById s.users caller <;> exact key
      · exact key

theorem createPost_users (env : Env) (s : State) (caller : String)
    (content tags file : Option String) :
    (createPost env s caller content tags file).2.users = s.users := by
  unfold createPost
  split_ifs
  · rfl
  · simp only []
    cases findUserById s.users caller <;> rfl

theorem createPost_postsOK (env : Env) (s : State) (caller : String)
    (content tags file : Option String) (h : PostsOK s.posts) :
    PostsOK (createPost env s caller content tags file).2.posts := by
  unfold createPost
  split_ifs
  · exact h
  · simp only []
    cases findUserById s.users caller <;> exact postsOK_append h _ rfl

theorem register_posts (env : Env) (s : State) (username email password fullName bio : Option String) :
    (register env s username email password fullName bio).2.posts = s.posts := by
  rw [register_unfold]
  split_ifs <;> rfl

theorem updateProfile_posts (s : State) (caller id : String) (fullName bio file : Option String) :
    (updateProfile s caller id fullName bio file).2.posts = s.posts := by
  unfold updateProfile
  cases findUserById s.users id with
  | none => rfl
  | some user =>
    simp only []
    split_ifs <;> rfl

theorem toggleFollow_posts (env : Env) (s : State) (caller target : String) :
    (toggleFollow env s caller target).2.posts = s.posts := by
  unfold toggleFollow
  split_ifs
  · rfl
  · cases findUserById s.users target <;> cases findUserById s.users caller <;>
      first | rfl | (simp only []; split_ifs <;> rfl)

theorem markRead_users_posts (s : State) (caller id : String) :
    (markRead s caller id).2.users = s.users ∧ (markRead s caller id).2.posts = s.posts := by
  unfold markRead
  cases s.notifications.find? (fun n => decide (n.id = id)) with
  | none => exact ⟨rfl, rfl⟩
  | some n =>
    simp only []
    split_ifs <;> exact ⟨rfl, rfl⟩

theorem login_state (env : Env) (s : State) (email password : Option String) :
    (login env s email password).2 = s := by
  unfold login
  split_ifs
  · rfl
  · cases s.users.find? (fun u => decide (u.email = email.getD "")) with
    | none => rfl
    | some user =>
      simp only []
      split_ifs <;> rfl

theorem feed_state (s : State) (caller : String) : (feed s caller).2 = s := by
  unfold feed
  cases findUserById s.users caller with
  | none => rfl
  | some user =>
    simp only []
    cases mapThrowing (feedEntry s.users caller)
      (s.posts.filter (fun post => (caller :: user.following).contains post.userId)) <;> rfl

theorem trending_state (s : State) (limitQuery : Option Nat) :
    (trending s limitQuery).2 = s := by
  unfold trending
  cases mapThrowing (trendingEntry s.users) s.posts <;> rfl

theorem search_state (env : Env) (s : State) (q : Option String) : (search env s q).2 = s := by
  unfold search
  split_ifs
  · rfl
  · simp only []
    split <;> rfl

theorem handle_wellFormed (env : Env) (s : State) (r : Request) (h : WellFormed s) :
    WellFormed (handle env s r).2 := by
  cases r with
  | register username email password fullName bio =>
    refine ⟨?_, ?_⟩
    · rcases register_users env s username email password fullName bio with e | ⟨u, h1, h2, e⟩
      · simpa [handle, e] using h.users
      · simpa [handle, e] using usersOK_append h.users u h1 h2
    · simpa [handle, register_posts] using h.posts
  | login email password => simpa [handle, login_state] using h
  | updateProfile caller id fullName bio file =>
    exact ⟨updateProfile_usersOK s caller id fullName bio file h.users,
      by simpa [handle, updateProfile_posts] using h.posts⟩
  | createPost caller content tags file =>
    exact ⟨by simpa [handle, createPost_users] using h.users,
      createPost_postsOK env s caller content tags file h.posts⟩
  | feed caller => simpa [handle, feed_state] using h
  | trending limitQuery => simpa [handle, trending_state] using h
  | toggleLike caller postId =>
    exact ⟨by simpa [handle, toggleLike_users] using h.users,
      toggleLike_postsOK env s caller postId h.posts⟩
  | addComment caller postId content =>
    exact ⟨by simpa [handle, addComment_users] using h.users,
      addComment_postsOK env s caller postId content h.posts⟩
  | toggleFollow caller target =>
    exact ⟨toggleFollow_usersOK env s caller target h.users,
      by simpa [handle, toggleFollow_posts] using h.posts⟩
  | listNotifications caller => simpa [handle, listNotifications] using h
  | markRead caller id =>
    exact ⟨by simpa [handle, (markRead_users_posts s caller id).1] using h.users,
      by simpa [handle, (markRead_users_posts s caller id).2] using h.posts⟩
  | search q => simpa [handle, search_state] using h

theorem registerResume_wellFormed (env : Env) (s : State)
    (username email password fullName bio : Option String) (h : WellFormed s) :
    WellFormed (registerResume env s username email password fullName bio).2 :=
  ⟨usersOK_append h.users (newUserRecord env username email password fullName bio) rfl rfl,
    h.posts⟩

theorem reachable_wellFormed {s : State} (h : Reachable s) : WellFormed s := by
  induction h with
  | init => exact ⟨usersOK_nil, by intro id p hp; simp [State.empty, findPostById] at hp⟩
  | step _ env r ih => exact handle_wellFormed env _ r ih
  | resume _ env username email password fullName bio _ ih =>
    exact registerResume_wellFormed env _ username email password fullName bio ih

/-! ## Follow and like toggles -/

theorem reachable_run {s : State} (h : Reachable s) (rs : List (Env × Request)) :
    Reachable (run s rs) := by
  induction rs generalizing s with
  | nil => exact h
  | cons er rest ih => exact ih (Reachable.step h er.1 er.2)

theorem toggleFollow_follow (env : Env) (s : State) (a b : String) (ua ub : User)
    (hab : a ≠ b) (ha : findUserById s.users a = some ua)
    (hb : findUserById s.users b = some ub) (hnf : b ∉ ua.following) :
    toggleFollow env s a b =
      (.followToggled "Followed successfully" true,
        { s with
          users :=
            updateFirst (fun u => decide (u.id = b)) (pushFollower a)
              (updateFirst (fun u => decide (u.id = a)) (pushFollowing b) s.users)
          notifications := s.notifications ++ [followNotification env ua b] }) := by
  have hba : ¬ b = a := fun e => hab e.symm
  simp [toggleFollow, hba, ha, hb, hnf]

theorem toggleFollow_unfollow (env : Env) (s : State) (a b : String) (ua ub : User)
    (hab : a ≠ b) (ha : findUserById s.users a = some ua)
    (hb : findUserById s.users b = some ub) (hf : b ∈ ua.following) :
    toggleFollow env s a b =
      (.followToggled "Unfollowed successfully" false,
        { s with
          users :=
            updateFirst (fun u => decide (u.id = b)) (dropFollower a)
              (updateFirst (fun u => decide (u.id = a)) (dropFollowing b) s.users) }) := by
  have hba : ¬ b = a := fun e => hab e.symm
  simp [toggleFollow, hba, ha, hb, hf]

/-- Two follow calls, stated for every store: the second call removes what the
first added, and from the target's follower list every occurrence of the caller. -/
theorem toggleFollow_twice (env1 env2 : Env) (s : State) (a b : String) (ua ub : User)
    (hab : a ≠ b) (ha : findUserById s.users a = some ua)
    (hb : findUserById s.users b = some ub) (hnf : b ∉ ua.following) :
    (toggleFollow env1 s a b).1 = .followToggled "Followed successfully" true ∧
    findUserById (toggleFollow env1 s a b).2.users a = some (pushFollowing b ua) ∧
    findUserById (toggleFollow env1 s a b).2.users b = some (pushFollower a ub) ∧
    (toggleFollow env2 (toggleFollow env1 s a b).2 a b).1 =
      .followToggled "Unfollowed successfully" false ∧
    findUserById (toggleFollow env2 (toggleFollow env1 s a b).2 a b).2.users a =
      some (dropFollowing b (pushFollowing b ua)) ∧
    findUserById (toggleFollow env2 (toggleFollow env1 s a b).2 a b).2.users b =
      some (dropFollower a (pushFollower a ub)) := by
  have hba : ¬ b = a := fun e => hab e.symm
  have e1 := toggleFollow_follow env1 s a b ua ub hab ha hb hnf
  have ha1 : findUserById (toggleFollow env1 s a b).2.users a = some (pushFollowing b ua) := by
    rw [e1]
    simp [toggleFollow_find_follow, ha, hab]
  have hb1 : findUserById (toggleFollow env1 s a b).2.users b = some (pushFollower a ub) := by
    rw [e1]
    simp [toggleFollow_find_follow, hb, hba]
  have e2 := toggleFollow_unfollow env2 (toggleFollow env1 s a b).2 a b _ _ hab ha1 hb1
    (by simp [pushFollowing])
  refine ⟨by rw [e1], ha1, hb1, by rw [e2], ?_, ?_⟩
  · rw [e2]
    simp [toggleFollow_find_unfollow, ha1, hab]
  · rw [e2]
    simp [toggleFollow_find_unfollow, hb1, hba]

/-- C1. In every store the server can reach, for distinct registered users `a` and `b`
where `a` does not yet follow `b`: after one follow call `b` is in `a.following` and `a`
is in `b.followers`; after a second call neither holds, and both lists are what they
were before the first call. -/
theorem follow_toggle_period_two (env1 env2 : Env) (s : State) (a b : String) (ua ub : User)
    (hs : Reachable s) (hab : a ≠ b) (ha : findUserById s.users a = some ua)
    (hb : findUserById s.users b = some ub) (hnf : b ∉ ua.following) :
    ∃ ua1 ub1 ua2 ub2 : User,
      findUserById (toggleFollow env1 s a b).2.users a = some ua1 ∧
      findUserById (toggleFollow env1 s a b).2.users b = some ub1 ∧
      b ∈ ua1.following ∧ a ∈ ub1.followers ∧
      findUserById (toggleFollow env2 (toggleFollow env1 s a b).2 a b).2.users a = some ua2 ∧
      findUserById (toggleFollow env2 (toggleFollow env1 s a b).2 a b).2.users b = some ub2 ∧
      b ∉ ua2.following ∧ a ∉ ub2.followers ∧
      ua2.following = ua.following ∧ ub2.followers = ub.followers := by
  obtain ⟨_, h1, h2, _, h3, h4⟩ := toggleFollow_twice env1 env2 s a b ua ub hab ha hb hnf
  have hnf2 : a ∉ ub.followers := fun h => hnf (((reachable_wellFormed hs).users.pair a b ua ub ha hb).mpr h)
  have hfing : (List.filter (fun id => decide (id ≠ b)) (ua.following ++ [b])) = ua.following := by
    rw [List.filter_append]
    simp
    intro x hx e
    exact hnf (e ▸ hx)
  have hfers : (List.filter (fun id => decide (id ≠ a)) (ub.followers ++ [a])) = ub.followers := by
    rw [List.filter_append]
    simp
    intro x hx e
    exact hnf2 (e ▸ hx)
  refine ⟨_, _, _, _, h1, h2, by simp [pushFollowing], by simp [pushFollower], h3, h4, ?_, ?_, ?_, ?_⟩
  · simp only [dropFollowing, pushFollowing, hfing]
    exact hnf
  · simp only [dropFollower, pushFollower, hfers]
    exact hnf2
  · simp only [dropFollowing, pushFollowing, hfing]
  · simp only [dropFollower, pushFollower, hfers]

set_option maxRecDepth 100000 in
theorem aliceBobState_users :
    findUserById aliceBobState.users "a" =
      some ⟨"a", "alice", "alice@example.org", "hashed:pw1", "alice", "", "", 10, [], []⟩ ∧
    findUserById aliceBobState.users "b" =
      some ⟨"b", "bob", "bob@example.org", "hashed:pw2", "bob", "", "", 20, [], []⟩ := by
  decide


theorem toggleLike_like (env : Env) (s : State) (u p : String) (post : Post) (user : User)
    (hp : findPostById s.posts p = some post) (hu : findUserById s.users u = some user)
    (hn : u ∉ post.likes) :
    toggleLike env s u p =
      (.likeToggled "Post liked" (post.likes.length + 1) true,
        { s with
          posts := updateFirst (fun q => decide (q.id = p)) (pushLike u) s.posts
          notifications :=
            if post.userId ≠ u then s.notifications ++ [likeNotification env user post]
            else s.notifications }) := by
  have hi : List.indexOf u post.likes = post.likes.length := List.indexOf_eq_length.mpr hn
  unfold toggleLike
  simp only [hp, hi, if_true]
  by_cases ho : post.userId = u
  · simp [ho]
  · simp [ho, hu]

theorem toggleLike_unlike (env : Env) (s : State) (u p : String) (post : Post)
    (hp : findPostById s.posts p = some post) (hm : u ∈ post.likes) :
    toggleLike env s u p =
      (.likeToggled "Post unliked" (post.likes.erase u).length false,
        { s with posts := updateFirst (fun q => decide (q.id = p)) (spliceLike u) s.posts }) := by
  have hi : ¬ List.indexOf u post.likes = post.likes.length := by
    rw [List.indexOf_eq_length]
    exact not_not.mpr hm
  unfold toggleLike
  simp only [hp, hi, if_false, spliceAtIndexOf_eq_erase]

/-- C3. In every store the server can reach, for an existing post `p` and a registered
user `u`: after two like calls in a row by `u` on `p`, `u` is among the likers exactly
when it was before, the liker list has its former length, which is the `likesCount`
of the second response, and the two calls report opposite `isLiked` values. -/
theorem like_twice_restores (env1 env2 : Env) (s : State) (u p : String) (post : Post)
    (user : User) (hs : Reachable s) (hp : findPostById s.posts p = some post)
    (hu : findUserById s.users u = some user) :
    ∃ (post2 : Post) (m1 m2 : String) (n1 : Nat) (b : Bool),
      (toggleLike env1 s u p).1 = .likeToggled m1 n1 b ∧
      (toggleLike env2 (toggleLike env1 s u p).2 u p).1 =
        .likeToggled m2 post.likes.length (!b) ∧
      findPostById (toggleLike env2 (toggleLike env1 s u p).2 u p).2.posts p = some post2 ∧
      (u ∈ post2.likes ↔ u ∈ post.likes) ∧
      post2.likes.length = post.likes.length := by
  by_cases hm : u ∈ post.likes
  · have e1 := toggleLike_unlike env1 s u p post hp hm
    have hnd : post.likes.Nodup := (reachable_wellFormed hs).posts p post hp
    have hp1 : findPostById (toggleLike env1 s u p).2.posts p = some (spliceLike u post) := by
      rw [e1]
      simp [findPostById_updateFirst (spliceLike u) (fun _ => rfl), hp]
    have hu1 : findUserById (toggleLike env1 s u p).2.users u = some user := by
      rw [toggleLike_users]
      exact hu
    have hn1 : u ∉ (spliceLike u post).likes := by
      simp only [spliceLike, spliceAtIndexOf_eq_erase]
      exact fun h => ((hnd.mem_erase_iff).mp h).1 rfl
    have e2 := toggleLike_like env2 _ u p _ user hp1 hu1 hn1
    have hlen : (spliceLike u post).likes.length + 1 = post.likes.length := by
      simp only [spliceLike, spliceAtIndexOf_eq_erase, List.length_erase_of_mem hm]
      have : 0 < post.likes.length := List.length_pos_of_mem hm
      omega
    refine ⟨pushLike u (spliceLike u post), "Post unliked", "Post liked",
      (post.likes.erase u).length, false, by rw [e1], ?_, ?_, ?_, ?_⟩
    · rw [e2, hlen]
      rfl
    · rw [e2]
      simp [findPostById_updateFirst (pushLike u) (fun _ => rfl), hp1]
    · simp [pushLike, hm]
    · simp only [pushLike, List.length_append, List.length_singleton]
      exact hlen
  · have e1 := toggleLike_like env1 s u p post user hp hu hm
    have hp1 : findPostById (toggleLike env1 s u p).2.posts p = some (pushLike u post) := by
      rw [e1]
      simp [findPostById_updateFirst (pushLike u) (fun _ => rfl), hp]
    have hm1 : u ∈ (pushLike u post).likes := by simp [pushLike]
    have e2 := toggleLike_unlike env2 _ u p _ hp1 hm1
    have her : (post.likes ++ [u]).erase u = post.likes := by
      rw [List.erase_append_right _ hm]
      simp
    refine ⟨spliceLike u (pushLike u post), "Post liked", "Post unliked",
      post.likes.length + 1, true, by rw [e1], ?_, ?_, ?_, ?_⟩
    · rw [e2]
      simp only [pushLike, her]
      rfl
    · rw [e2]
      simp [findPostById_updateFirst (spliceLike u) (fun _ => rfl), hp1]
    · simp only [spliceLike, pushLike, spliceAtIndexOf_eq_erase, her]
    · simp only [spliceLike, pushLike, spliceAtIndexOf_eq_erase, her]

/-! ## Self-follow and post creation -/

set_option maxRecDepth 100000 in
theorem scenarioState_lookups :
    findUserById scenarioState.users "a" =
      some ⟨"a", "alice", "alice@example.org", "hashed:pw1", "alice", "", "", 10, ["b"], []⟩ ∧
    findUserById scenarioState.users "b" =
      some ⟨"b", "bob", "bob@example.org", "hashed:pw2", "bob", "", "", 20, [], ["a"]⟩ ∧
    findPostById scenarioState.posts "d" = some ⟨"d", "a", "hi", "", [], [], [], 40⟩ := by
  decide

theorem follow_toggle_period_two_witness :
    ∃ ua1 ub1 ua2 ub2 : User,
      findUserById (toggleFollow (sampleEnv 'c' 30) aliceBobState "a" "b").2.users "a" =
        some ua1 ∧
      findUserById (toggleFollow (sampleEnv 'c' 30) aliceBobState "a" "b").2.users "b" =
        some ub1 ∧
      "b" ∈ ua1.following ∧ "a" ∈ ub1.followers ∧
      findUserById (toggleFollow (sampleEnv 'd' 40)
        (toggleFollow (sampleEnv 'c' 30) aliceBobState "a" "b").2 "a" "b").2.users "a" =
        some ua2 ∧
      findUserById (toggleFollow (sampleEnv 'd' 40)
        (toggleFollow (sampleEnv 'c' 30) aliceBobState "a" "b").2 "a" "b").2.users "b" =
        some ub2 ∧
      "b" ∉ ua2.following ∧ "a" ∉ ub2.followers ∧
      ua2.following = [] ∧ ub2.followers = [] :=
  follow_toggle_period_two (sampleEnv 'c' 30) (sampleEnv 'd' 40) aliceBobState "a" "b" _ _
    (reachable_run Reachable.init aliceBobRequests) (by decide) aliceBobState_users.1
    aliceBobState_users.2 (by decide)

/-- C2. For every store and every caller id, registered or not, a follow call whose
target is the caller itself is answered with status 400 and `Cannot follow yourself`,
and the whole store is left as it was. -/
theorem follow_self_rejected (env : Env) (s : State) (a : String) :
    toggleFollow env s a a = (.error 400 "Cannot follow yourself", s) := by
  simp [toggleFollow]

theorem like_twice_restores_witness :
    ∃ (post2 : Post) (m1 m2 : String) (n1 : Nat) (b : Bool),
      (toggleLike (sampleEnv 'e' 50) scenarioState "b" "d").1 = .likeToggled m1 n1 b ∧
      (toggleLike (sampleEnv 'f' 60)
        (toggleLike (sampleEnv 'e' 50) scenarioState "b" "d").2 "b" "d").1 =
        .likeToggled m2 0 (!b) ∧
      findPostById (toggleLike (sampleEnv 'f' 60)
        (toggleLike (sampleEnv 'e' 50) scenarioState "b" "d").2 "b" "d").2.posts "d" =
        some post2 ∧
      ("b" ∈ post2.likes ↔ "b" ∈ ([] : List String)) ∧
      post2.likes.length = 0 :=
  like_twice_restores (sampleEnv 'e' 50) (sampleEnv 'f' 60) scenarioState "b" "d" _ _
    (reachable_run Reachable.init scenarioRequests) scenarioState_lookups.2.2 scenarioState_lookups.2.1

/-- C4. For a registered caller `u`, create-post is refused with status 400 and
`Post content or media is required`, leaving the store as it was, when the content is
absent or empty and no file is supplied; in every other case it answers with the new
post and appends exactly that post, owned by `u`, carrying the supplied content and
media reference, with no likers and no comments. -/
theorem createPost_empty_iff (env : Env) (s : State) (u : String) (user : User)
    (content tags file : Option String) (hu : findUserById s.users u = some user) :
    (((content = none ∨ content = some "") ∧ file = none) →
      createPost env s u content tags file =
        (.error 400 "Post content or media is required", s)) ∧
    (¬ ((content = none ∨ content = some "") ∧ file = none) →
      ∃ newPost : Post,
        (createPost env s u content tags file).1 =
          .postCreated "Post created successfully" newPost ∧
        (createPost env s u content tags file).2.posts = s.posts ++ [newPost] ∧
        (createPost env s u content tags file).2.users = s.users ∧
        (createPost env s u content tags file).2.comments = s.comments ∧
        newPost.userId = u ∧
        newPost.content = content.getD "" ∧
        newPost.media = mediaPath file ∧
        newPost.likes = [] ∧ newPost.comments = []) := by
  constructor
  · rintro ⟨hc, rfl⟩
    rcases hc with rfl | rfl <;> simp [createPost, truthy]
  · intro h
    have hcond : (!truthy content && file.isNone) = false := by
      cases content with
      | none => cases file <;> simp_all [truthy]
      | some c =>
        by_cases hc : c = ""
        · cases file <;> simp_all [truthy]
        · simp [truthy, hc]
    have hcontent : orElse content "" = content.getD "" := by
      cases content with
      | none => rfl
      | some c =>
        by_cases hc : c = "" <;> simp [orElse, hc]
    unfold createPost
    simp only [hcond, hu]
    exact ⟨_, rfl, rfl, rfl, rfl, rfl, hcontent, rfl, rfl, rfl⟩

theorem createPost_empty_iff_witness :
    (((some "hello" = none ∨ some "hello" = some "") ∧ (none : Option String) = none) →
      createPost (sampleEnv 'e' 50) aliceBobState "a" (some "hello") none none =
        (.error 400 "Post content or media is required", aliceBobState)) ∧
    (¬ (((some "hello" : Option String) = none ∨ some "hello" = some "") ∧
        (none : Option String) = none) →
      ∃ newPost : Post,
        (createPost (sampleEnv 'e' 50) aliceBobState "a" (some "hello") none none).1 =
          .postCreated "Post created successfully" newPost ∧
        (createPost (sampleEnv 'e' 50) aliceBobState "a" (some "hello") none none).2.posts =
          aliceBobState.posts ++ [newPost] ∧
        (createPost (sampleEnv 'e' 50) aliceBobState "a" (some "hello") none none).2.users =
          aliceBobState.users ∧
        (createPost (sampleEnv 'e' 50) aliceBobState "a" (some "hello") none none).2.comments =
          aliceBobState.comments ∧
        newPost.userId = "a" ∧
        newPost.content = "hello" ∧
        newPost.media = "" ∧
        newPost.likes = [] ∧ newPost.comments = []) :=
  createPost_empty_iff (sampleEnv 'e' 50) aliceBobState "a" _ (some "hello") none none
    aliceBobState_users.1

/-! ## Feed -/

theorem mapThrowing_eq_filterMap {α β : Type} (f : α → Option β) (l : List α)
    (h : ∀ x ∈ l, (f x).isSome) : mapThrowing f l = some (l.filterMap f) := by
  induction l with
  | nil => rfl
  | cons a l ih =>
    have hl : mapThrowing f l = some (l.filterMap f) :=
      ih (fun x hx => h x (List.mem_cons_of_mem a hx))
    have ha := h a (List.mem_cons_self a l)
    cases hfa : f a with
    | none => simp [hfa] at ha
    | some y => simp [mapThrowing, hfa, hl, List.filterMap_cons]

theorem mapThrowing_eq_none {α β : Type} (f : α → Option β) (l : List α) (x : α)
    (hx : x ∈ l) (h : f x = none) : mapThrowing f l = none := by
  induction l with
  | nil => cases hx
  | cons a l ih =>
    rcases List.mem_cons.mp hx with rfl | hx1
    · simp [mapThrowing, h]
    · cases hfa : f a with
      | none => simp [mapThrowing, hfa]
      | some y => simp [mapThrowing, hfa, ih hx1]

theorem feedEntry_post {users : List User} {u : String} {post : Post} {e : FeedEntry}
    (h : feedEntry users u post = some e) : e.post = post := by
  unfold feedEntry at h
  cases ho : findUserById users post.userId with
  | none => simp [ho] at h
  | some owner =>
    simp only [ho, Option.some.injEq] at h
    rw [← h]

theorem feedEntry_isSome {users : List User} {u : String} {post : Post}
    (h : (findUserById users post.userId).isSome) : (feedEntry users u post).isSome := by
  unfold feedEntry
  cases ho : findUserById users post.userId with
  | none => simp [ho] at h
  | some owner => rfl

theorem feed_eq (s : State) (u : String) (user : User)
    (hu : findUserById s.users u = some user)
    (hreg : ∀ x ∈ user.following, (findUserById s.users x).isSome) :
    feed s u =
      (.feed (jsSort feedCmp
        ((s.posts.filter (fun post => (u :: user.following).contains post.userId)).filterMap
          (feedEntry s.users u))), s) := by
  have hmap := mapThrowing_eq_filterMap (feedEntry s.users u)
      (s.posts.filter (fun post => (u :: user.following).contains post.userId))
      (by
        intro post hpost
        have hmem : post.userId = u ∨ post.userId ∈ user.following := by
          simpa using (List.mem_filter.mp hpost).2
        apply feedEntry_isSome
        rcases hmem with e | hm
        · rw [e, hu]
          rfl
        · exact hreg _ hm)
  unfold feed
  simp only [hu, hmap]

/-- C5. In every store the server can reach, for a registered user `u`, the feed call
answers with a feed, and a post is in that feed exactly when it is in the post store
and its owner is `u` or is listed in `u.following`. -/
theorem feed_membership (s : State) (u : String) (user : User) (hs : Reachable s)
    (hu : findUserById s.users u = some user) :
    ∃ entries : List FeedEntry,
      feed s u = (.feed entries, s) ∧
      ∀ p : Post, p ∈ entries.map FeedEntry.post ↔
        (p ∈ s.posts ∧ (p.userId = u ∨ p.userId ∈ user.following)) := by
  have hreg := (reachable_wellFormed hs).users.followingRegistered u user hu
  refine ⟨_, feed_eq s u user hu hreg, ?_⟩
  intro p
  simp only [jsSort, List.mem_map, List.mem_insertionSort, List.mem_filterMap, List.mem_filter]
  constructor
  · rintro ⟨e, ⟨q, ⟨hq, hc⟩, he⟩, rfl⟩
    rw [feedEntry_post he]
    exact ⟨hq, by simpa using hc⟩
  · rintro ⟨hp, hc⟩
    have hsome : (feedEntry s.users u p).isSome := by
      apply feedEntry_isSome
      rcases hc with e | hm
      · rw [e, hu]
        rfl
      · exact hreg _ hm
    obtain ⟨e, he⟩ := Option.isSome_iff_exists.mp hsome
    exact ⟨e, ⟨p, ⟨hp, by simpa using hc⟩, he⟩, feedEntry_post he⟩

set_option maxRecDepth 100000 in
theorem feed_membership_witness :
    ∃ entries : List FeedEntry,
      feed scenarioState "b" = (.feed entries, scenarioState) ∧
      ∀ p : Post, p ∈ entries.map FeedEntry.post ↔
        (p ∈ scenarioState.posts ∧ (p.userId = "b" ∨ p.userId ∈ ["a"])) :=
  feed_membership scenarioState "b" _ (reachable_run Reachable.init scenarioRequests)
    scenarioState_lookups.2.1

/-! ## Trending -/

theorem filterMap_map_left {α β : Type} (f : α → Option β) (proj : β → α) (l : List α)
    (h : ∀ x ∈ l, ∃ y, f x = some y ∧ proj y = x) : (l.filterMap f).map proj = l := by
  induction l with
  | nil => rfl
  | cons a l ih =>
    obtain ⟨y, hy, hp⟩ := h a (List.mem_cons_self a l)
    have hl := ih (fun x hx => h x (List.mem_cons_of_mem a hx))
    simp [List.filterMap_cons, hy, hp, hl]

theorem trendingEntry_some {users : List User} {post : Post}
    (h : (findUserById users post.userId).isSome) :
    ∃ e, trendingEntry users post = some e ∧ e.post = post := by
  unfold trendingEntry
  cases ho : findUserById users post.userId with
  | none => simp [ho] at h
  | some owner => exact ⟨_, rfl, rfl⟩

theorem trending_eq (s : State) (limitQuery : Option Nat)
    (hown : ∀ p ∈ s.posts, (findUserById s.users p.userId).isSome) :
    trending s limitQuery =
      (.trending ((jsSort trendingCmp (s.posts.filterMap (trendingEntry s.users))).take 10), s) := by
  have hmap := mapThrowing_eq_filterMap (trendingEntry s.users) s.posts
    (fun p hp => by
      obtain ⟨e, he, _⟩ := trendingEntry_some (hown p hp)
      simp [he])
  unfold trending
  simp only [hmap]

theorem jsSort_trending_posts (entries : List TrendingEntry) :
    (jsSort trendingCmp entries).map TrendingEntry.post =
      rankedPosts (entries.map TrendingEntry.post) := by
  unfold jsSort rankedPosts
  apply List.map_insertionSort
  intro a _ b _
  simp only [trendingCmp, postScore]
  omega

theorem rankedPosts_sorted (posts : List Post) :
    (rankedPosts posts).Pairwise (fun p q => postScore q ≤ postScore p) := by
  haveI : IsTotal Post (fun p q => postScore q ≤ postScore p) :=
    ⟨fun p q => Nat.le_total (postScore q) (postScore p)⟩
  haveI : IsTrans Post (fun p q => postScore q ≤ postScore p) :=
    ⟨fun _ _ _ h1 h2 => Nat.le_trans h2 h1⟩
  exact List.sorted_insertionSort (fun p q => postScore q ≤ postScore p) posts

/-- C6 (amended). In every store in which each post's owner is registered, whatever
`limit` the request carries, the trending call answers with the first 10 posts of the
post list stably sorted by likers plus comment ids, highest first: the ranking is a
permutation of the post store with non-increasing scores, two posts where the earlier
one scores at least as much as the later one keep their store order, and the answer has
min(10, number of posts) entries. -/
theorem trending_top_ten (s : State) (limitQuery : Option Nat)
    (hown : ∀ p ∈ s.posts, (findUserById s.users p.userId).isSome) :
    ∃ entries : List TrendingEntry,
      trending s limitQuery = (.trending entries, s) ∧
      entries.map TrendingEntry.post = (rankedPosts s.posts).take 10 ∧
      (rankedPosts s.posts).Perm s.posts ∧
      (rankedPosts s.posts).Pairwise (fun p q => postScore q ≤ postScore p) ∧
      (∀ p q : Post, List.Sublist [p, q] s.posts → postScore q ≤ postScore p →
        List.Sublist [p, q] (rankedPosts s.posts)) ∧
      (entries.map TrendingEntry.post).Pairwise (fun p q => postScore q ≤ postScore p) ∧
      entries.length = min 10 s.posts.length := by
  have hposts : (s.posts.filterMap (trendingEntry s.users)).map TrendingEntry.post = s.posts :=
    filterMap_map_left _ _ _ (fun p hp => trendingEntry_some (hown p hp))
  have hmap : ((jsSort trendingCmp (s.posts.filterMap (trendingEntry s.users))).take 10).map
      TrendingEntry.post = (rankedPosts s.posts).take 10 := by
    rw [List.map_take, jsSort_trending_posts, hposts]
  have hlen : ((jsSort trendingCmp (s.posts.filterMap (trendingEntry s.users))).take 10).length =
      min 10 s.posts.length := by
    have := congrArg List.length hmap
    simpa [rankedPosts] using this
  refine ⟨_, trending_eq s limitQuery hown, hmap, ?_, rankedPosts_sorted s.posts, ?_, ?_, hlen⟩
  · exact List.perm_insertionSort _ s.posts
  · intro p q hsub hpq
    exact List.pair_sublist_insertionSort hpq hsub
  · rw [hmap]
    exact (rankedPosts_sorted s.posts).sublist (List.take_sublist 10 _)

set_option maxRecDepth 100000 in
/-- C6, as stated, fails: with two posts in the store and `limit` 1 in the request, the
trending answer has two entries, not min(1, 2); and in the store left by a create-post
call with an id that no user has, the trending call answers 500. -/
theorem trending_ignores_limit :
    (∃ entries : List TrendingEntry,
      trending twoPostState (some 1) = (.trending entries, twoPostState) ∧
      twoPostState.posts.length = 2 ∧
      entries.length = 2 ∧
      entries.map TrendingEntry.post ≠ (rankedPosts twoPostState.posts).take 1 ∧
      entries.length ≠ min 1 twoPostState.posts.length) ∧
    ghostPostState.posts.length = 1 ∧
    trending ghostPostState none = (.error 500 "Server error", ghostPostState) :=
  ⟨⟨_, rfl, by decide, by decide, by decide, by decide⟩, by decide, by decide⟩

set_option maxRecDepth 100000 in
theorem trending_top_ten_witness :
    ∃ entries : List TrendingEntry,
      trending twoPostState (some 1) = (.trending entries, twoPostState) ∧
      entries.map TrendingEntry.post = (rankedPosts twoPostState.posts).take 10 ∧
      (rankedPosts twoPostState.posts).Perm twoPostState.posts ∧
      (rankedPosts twoPostState.posts).Pairwise (fun p q => postScore q ≤ postScore p) ∧
      (∀ p q : Post, List.Sublist [p, q] twoPostState.posts → postScore q ≤ postScore p →
        List.Sublist [p, q] (rankedPosts twoPostState.posts)) ∧
      (entries.map TrendingEntry.post).Pairwise (fun p q => postScore q ≤ postScore p) ∧
      entries.length = min 10 twoPostState.posts.length :=
  trending_top_ten twoPostState (some 1) (by decide)

/-! ## Search -/

/-- C7. For every store, a search with the empty query (or none) is answered with status
400 and `Search query is required`; a search with a non-empty query that, lower-cased,
is contained in no lower-cased username, display name, post content or tag is answered
with a users list and a posts list, both empty. -/
theorem search_blank_or_no_match (env : Env) (s : State) (q : String) (hq : q ≠ "")
    (hu : ∀ u ∈ s.users,
      jsIncludes (env.toLowerCase u.username) (env.toLowerCase q) = false ∧
      jsIncludes (env.toLowerCase u.fullName) (env.toLowerCase q) = false)
    (hp : ∀ p ∈ s.posts,
      jsIncludes (env.toLowerCase p.content) (env.toLowerCase q) = false ∧
      ∀ t ∈ p.tags, jsIncludes (env.toLowerCase t) (env.toLowerCase q) = false) :
    search env s (some "") = (.error 400 "Search query is required", s) ∧
    search env s none = (.error 400 "Search query is required", s) ∧
    search env s (some q) = (.searchResults [] [], s) := by
  refine ⟨by simp [search, truthy], by simp [search, truthy], ?_⟩
  have husers : s.users.filter (fun user =>
      jsIncludes (env.toLowerCase user.username) (env.toLowerCase q) ||
        jsIncludes (env.toLowerCase user.fullName) (env.toLowerCase q)) = [] := by
    rw [List.filter_eq_nil_iff]
    intro u hmem
    simp [(hu u hmem).1, (hu u hmem).2]
  have hposts : s.posts.filter (fun post =>
      jsIncludes (env.toLowerCase post.content) (env.toLowerCase q) ||
        post.tags.any (fun tag => jsIncludes (env.toLowerCase tag) (env.toLowerCase q))) = [] := by
    rw [List.filter_eq_nil_iff]
    intro p hmem
    have h2 := (hp p hmem).2
    simp only [(hp p hmem).1, Bool.false_or, List.any_eq_true, not_exists, not_and]
    intro t ht
    simp [h2 t ht]
  have htruthy : (!truthy (some q)) = false := by simp [truthy, hq]
  unfold search
  simp only [htruthy, Bool.false_eq_true, if_false, Option.getD_some, husers, hposts,
    mapThrowing, List.map_nil]

set_option maxRecDepth 100000 in
theorem search_blank_or_no_match_witness :
    search (sampleEnv 'e' 50) scenarioState (some "") =
      (.error 400 "Search query is required", scenarioState) ∧
    search (sampleEnv 'e' 50) scenarioState none =
      (.error 400 "Search query is required", scenarioState) ∧
    search (sampleEnv 'e' 50) scenarioState (some "xyz") =
      (.searchResults [] [], scenarioState) :=
  search_blank_or_no_match (sampleEnv 'e' 50) scenarioState "xyz" (by decide) (by decide)
    (by decide)

/-! ## New-post notifications -/

theorem createPost_ok (env : Env) (s : State) (a : String) (user : User)
    (content tags file : Option String) (hu : findUserById s.users a = some user)
    (hok : (!truthy content && file.isNone) = false) :
    createPost env s a content tags file =
      (.postCreated "Post created successfully" (newPostRecord env a content tags file),
        { s with
          posts := s.posts ++ [newPostRecord env a content tags file]
          notifications := s.notifications ++
            user.followers.enum.map
              (fun p => newPostNotification env user (env.uuid 0) p.1 p.2) }) := by
  unfold createPost
  simp only [hok, hu]
  rfl

theorem enum_map_snd_eq {α β : Type} (f : Nat → α → β) (g : β → α) (l : List α)
    (h : ∀ i x, g (f i x) = x) (n : Nat) :
    ((l.enumFrom n).map (fun p => f p.1 p.2)).map g = l := by
  induction l generalizing n with
  | nil => rfl
  | cons a l ih => simp [List.enumFrom_cons, h, ih]

theorem scenarioWith_state (env1 env2 env3 env4 : Env) (hid : env1.uuid 0 ≠ env2.uuid 0) :
    run State.empty (scenarioWith env1 env2 env3 env4) =
      { users :=
          [⟨env1.uuid 0, "alice", "alice@example.org", env1.bcryptHash "pw1", "alice", "", "",
              env1.now 0, [env2.uuid 0], []⟩,
            ⟨env2.uuid 0, "bob", "bob@example.org", env2.bcryptHash "pw2", "bob", "", "",
              env2.now 0, [], [env1.uuid 0]⟩]
        posts := [⟨env4.uuid 0, env1.uuid 0, "hi", "", [], [], [], env4.now 0⟩]
        comments := []
        notifications :=
          [⟨env3.uuid 0, env1.uuid 0, "follow", "bob started following you", none, none,
              env3.now 0, false⟩,
            ⟨env4.uuid 1, env2.uuid 0, "new_post", "alice created a new post",
              some (env4.uuid 0), none, env4.now 1, false⟩] } := by
  have hid2 : ¬ env2.uuid 0 = env1.uuid 0 := fun e => hid e.symm
  simp [scenarioWith, run, handle, register_unfold, toggleFollow, createPost, truthy, orElse,
    newPostRecord, mediaPath,
    State.empty, findUserById, List.find?_cons, hid, hid2, updateFirst, pushFollower,
    pushFollowing, followNotification, newPostNotification, parseTags, List.enum,
    List.enumFrom]

/-- C8. For every store and registered author, a successful create-post appends one
notification per entry of the author's follower list as it is at the call, addressed to
that follower, of kind `new_post`, unread and referencing the new post, and nothing
else; a later follow call appends no `new_post` notification; and at the end of the
scenario (alice, bob, bob follows alice, alice posts) bob's notification list is exactly
one `new_post` notification. -/
theorem createPost_notifies_followers (env env1 env2 env3 env4 : Env) (s : State)
    (a c t : String) (user : User) (content tags file : Option String)
    (hu : findUserById s.users a = some user)
    (hok : truthy content = true ∨ file.isSome = true)
    (hid : env1.uuid 0 ≠ env2.uuid 0) :
    (∃ (newPost : Post) (added : List Notification),
      (createPost env s a content tags file).1 =
        .postCreated "Post created successfully" newPost ∧
      (createPost env s a content tags file).2.notifications = s.notifications ++ added ∧
      added.map Notification.userId = user.followers ∧
      ∀ n ∈ added, n.type = "new_post" ∧ n.read = false ∧ n.postId = some newPost.id) ∧
    (∀ n ∈ (toggleFollow env s c t).2.notifications,
      n.type = "new_post" → n ∈ s.notifications) ∧
    (listNotifications (run State.empty (scenarioWith env1 env2 env3 env4)) (env2.uuid 0)).1 =
      .notificationList
        [⟨env4.uuid 1, env2.uuid 0, "new_post", "alice created a new post",
          some (env4.uuid 0), none, env4.now 1, false⟩] := by
  refine ⟨?_, ?_, ?_⟩
  · have hok1 : (!truthy content && file.isNone) = false := by
      rcases hok with h | h
      · simp [h]
      · cases file <;> simp_all
    rw [createPost_ok env s a user content tags file hu hok1]
    refine ⟨_, _, rfl, rfl, ?_, ?_⟩
    · exact enum_map_snd_eq (newPostNotification env user (env.uuid 0)) Notification.userId
        user.followers (fun _ _ => rfl) 0
    · intro n hn
      obtain ⟨p, _, rfl⟩ := List.mem_map.mp hn
      exact ⟨rfl, rfl, rfl⟩
  · intro n hn htype
    unfold toggleFollow at hn
    split_ifs at hn with h1
    · exact hn
    · cases ht : findUserById s.users t with
      | none => simpa [ht] using hn
      | some tu =>
        cases hc : findUserById s.users c with
        | none => simpa [ht, hc] using hn
        | some cu =>
          simp only [ht, hc] at hn
          split_ifs at hn with h2
          · exact hn
          · rcases List.mem_append.mp hn with h | h
            · exact h
            · have : n = followNotification env cu t := by simpa using h
              rw [this] at htype
              simp [followNotification] at htype
  · rw [scenarioWith_state env1 env2 env3 env4 hid]
    have hid2 : ¬ env1.uuid 0 = env2.uuid 0 := hid
    simp [listNotifications, jsSort, List.filter_cons, hid2]

set_option maxRecDepth 100000 in
theorem createPost_notifies_followers_witness :
    (∃ (newPost : Post) (added : List Notification),
      (createPost (sampleEnv 'd' 40) (run State.empty
        (scenarioWith (sampleEnv 'a' 10) (sampleEnv 'b' 20) (sampleEnv 'c' 30) (sampleEnv 'x' 35)))
        "a" (some "again") none none).1 =
        .postCreated "Post created successfully" newPost ∧
      (createPost (sampleEnv 'd' 40) (run State.empty
        (scenarioWith (sampleEnv 'a' 10) (sampleEnv 'b' 20) (sampleEnv 'c' 30) (sampleEnv 'x' 35)))
        "a" (some "again") none none).2.notifications =
        (run State.empty
          (scenarioWith (sampleEnv 'a' 10) (sampleEnv 'b' 20) (sampleEnv 'c' 30)
            (sampleEnv 'x' 35))).notifications ++ added ∧
      added.map Notification.userId = ["b"] ∧
      ∀ n ∈ added, n.type = "new_post" ∧ n.read = false ∧ n.postId = some newPost.id) ∧
    (∀ n ∈ (toggleFollow (sampleEnv 'd' 40) (run State.empty
        (scenarioWith (sampleEnv 'a' 10) (sampleEnv 'b' 20) (sampleEnv 'c' 30) (sampleEnv 'x' 35)))
        "b" "a").2.notifications,
      n.type = "new_post" → n ∈ (run State.empty
        (scenarioWith (sampleEnv 'a' 10) (sampleEnv 'b' 20) (sampleEnv 'c' 30)
          (sampleEnv 'x' 35))).notifications) ∧
    (listNotifications (run State.empty
        (scenarioWith (sampleEnv 'a' 10) (sampleEnv 'b' 20) (sampleEnv 'c' 30) (sampleEnv 'd' 40)))
        "b").1 =
      .notificationList
        [⟨"dd", "b", "new_post", "alice created a new post", some "d", none, 41, false⟩] :=
  createPost_notifies_followers (sampleEnv 'd' 40) (sampleEnv 'a' 10) (sampleEnv 'b' 20)
    (sampleEnv 'c' 30) (sampleEnv 'd' 40) _ "a" "b" "a"
    ⟨"a", "alice", "alice@example.org", "hashed:pw1", "alice", "", "", 10, ["b"], []⟩
    (some "again") none none (by decide) (by decide) (by decide)

/-! ## Scenario feeds and error responses -/

set_option maxRecDepth 100000 in
/-- C9, as stated, fails: at the end of the scenario (register alice, register bob, bob
follows alice, alice creates the post `hi`) bob's feed does contain alice's post. -/
theorem scenario_bob_feed_contains_post :
    scenarioState.posts = [⟨"d", "a", "hi", "", [], [], [], 40⟩] ∧
    ∃ entries : List FeedEntry,
      feed scenarioState "b" = (.feed entries, scenarioState) ∧
      (⟨"d", "a", "hi", "", [], [], [], 40⟩ : Post) ∈ entries.map FeedEntry.post :=
  ⟨by decide, _, rfl, by decide⟩

/-- C9 (amended). At the end of the scenario (register alice, register bob, bob follows
alice, alice creates the post `hi`), whatever identifiers, times and hashes the
environment supplies as long as the two user ids differ, alice's feed is exactly that
post, and bob's feed is exactly that post as well, since bob follows alice. -/
theorem scenario_feeds (env1 env2 env3 env4 : Env) (hid : env1.uuid 0 ≠ env2.uuid 0) :
    (feed (run State.empty (scenarioWith env1 env2 env3 env4)) (env1.uuid 0)).1 =
      .feed [⟨⟨env4.uuid 0, env1.uuid 0, "hi", "", [], [], [], env4.now 0⟩,
        ⟨env1.uuid 0, "alice", "alice", ""⟩, 0, 0, false⟩] ∧
    (feed (run State.empty (scenarioWith env1 env2 env3 env4)) (env2.uuid 0)).1 =
      .feed [⟨⟨env4.uuid 0, env1.uuid 0, "hi", "", [], [], [], env4.now 0⟩,
        ⟨env1.uuid 0, "alice", "alice", ""⟩, 0, 0, false⟩] := by
  have hid2 : ¬ env2.uuid 0 = env1.uuid 0 := fun e => hid e.symm
  rw [scenarioWith_state env1 env2 env3 env4 hid]
  constructor
  · simp [feed, findUserById, List.find?_cons, mapThrowing, feedEntry, summaryOf, jsSort]
  · simp [feed, findUserById, List.find?_cons, mapThrowing, feedEntry, summaryOf, jsSort, hid,
      hid2]

set_option maxRecDepth 100000 in
theorem scenario_feeds_witness :
    (feed (run State.empty
      (scenarioWith (sampleEnv 'a' 10) (sampleEnv 'b' 20) (sampleEnv 'c' 30) (sampleEnv 'd' 40)))
      "a").1 =
      .feed [⟨⟨"d", "a", "hi", "", [], [], [], 40⟩, ⟨"a", "alice", "alice", ""⟩, 0, 0, false⟩] ∧
    (feed (run State.empty
      (scenarioWith (sampleEnv 'a' 10) (sampleEnv 'b' 20) (sampleEnv 'c' 30) (sampleEnv 'd' 40)))
      "b").1 =
      .feed [⟨⟨"d", "a", "hi", "", [], [], [], 40⟩, ⟨"a", "alice", "alice", ""⟩, 0, 0, false⟩] :=
  scenario_feeds (sampleEnv 'a' 10) (sampleEnv 'b' 20) (sampleEnv 'c' 30) (sampleEnv 'd' 40)
    (by decide)

/-- Once the content and the post are accepted, the comment handler always writes the
comment and the post's comment id and then answers 500: building the response reads
the unbound identifier `user`. -/
theorem addComment_accepted (env : Env) (s : State) (caller postId : String)
    (content : Option String) (post : Post) (hc : truthy content = true)
    (hp : findPostById s.posts postId = some post) :
    (addComment env s caller postId content).1 = serverError ∧
    (addComment env s caller postId content).2.comments =
      s.comments ++ [⟨env.uuid 0, postId, caller, content.getD "", env.now 0⟩] ∧
    (addComment env s caller postId content).2.posts =
      updateFirst (fun p => decide (p.id = postId)) (pushComment (env.uuid 0)) s.posts := by
  unfold addComment
  simp only [hc, hp, Bool.not_true, Bool.false_eq_true, if_false]
  by_cases ho : post.userId = caller
  · simp [ho, commentResponse, commentHandlerOuterUser]
  · cases hu : findUserById s.users caller with
    | none => simp [ho, hu]
    | some user => simp [ho, hu, commentResponse, commentHandlerOuterUser]

set_option maxRecDepth 100000 in
/-- C10 fails on the code: in the scenario store, bob's comment `nice` on alice's post is
answered with status 500, yet the comment store, the post's comment ids and the
notification store have all been written. -/
theorem addComment_error_after_writes :
    (handle (sampleEnv 'e' 50) scenarioState (.addComment "b" "d" (some "nice"))).1 =
      .error 500 "Server error" ∧
    (handle (sampleEnv 'e' 50) scenarioState (.addComment "b" "d" (some "nice"))).1.isError =
      true ∧
    scenarioState.comments = [] ∧
    (handle (sampleEnv 'e' 50) scenarioState (.addComment "b" "d" (some "nice"))).2.comments =
      [⟨"e", "d", "b", "nice", 50⟩] ∧
    (handle (sampleEnv 'e' 50) scenarioState (.addComment "b" "d" (some "nice"))).2.posts =
      [⟨"d", "a", "hi", "", [], [], ["e"], 40⟩] ∧
    (handle (sampleEnv 'e' 50) scenarioState
      (.addComment "b" "d" (some "nice"))).2.notifications.length =
      scenarioState.notifications.length + 1 ∧
    (handle (sampleEnv 'e' 50) scenarioState (.addComment "b" "d" (some "nice"))).2 ≠
      scenarioState := by
  decide

set_option maxRecDepth 100000 in
/-- The same defect in create-post: called with an id that no user has, it stores the
post and then answers 500. -/
theorem createPost_unregistered_error_after_write :
    (handle (sampleEnv 'e' 50) scenarioState (.createPost "ghost" (some "boo") none none)).1 =
      .error 500 "Server error" ∧
    (handle (sampleEnv 'e' 50) scenarioState (.createPost "ghost" (some "boo") none none)).2.posts =
      scenarioState.posts ++ [⟨"e", "ghost", "boo", "", [], [], [], 50⟩] := by
  decide

/-! ## Comments and follow-list consistency -/

set_option maxRecDepth 100000 in
/-- C11 fails on the code: in the scenario store, bob's comment `nice` on alice's existing
post is not answered with status 201 and the comment with its author summary but with
status 500; the comment store has gained the comment and the post's comment ids end with
the new id. Empty content is answered `Comment content is required` and an unknown post
`Post not found`. -/
theorem addComment_never_created :
    addComment (sampleEnv 'e' 50) scenarioState "b" "d" (some "nice") =
      (.error 500 "Server error",
        { scenarioState with
          comments := scenarioState.comments ++ [⟨"e", "d", "b", "nice", 50⟩]
          posts := [⟨"d", "a", "hi", "", [], [], ["e"], 40⟩]
          notifications := scenarioState.notifications ++
            [⟨"ee", "a", "comment", "bob commented on your post", some "d", some "e", 51,
              false⟩] }) ∧
    (∀ u : UserSummary,
      (addComment (sampleEnv 'e' 50) scenarioState "b" "d" (some "nice")).1 ≠
        .commentAdded "Comment added successfully" ⟨"e", "d", "b", "nice", 50⟩ u) ∧
    addComment (sampleEnv 'e' 50) scenarioState "b" "d" (some "") =
      (.error 400 "Comment content is required", scenarioState) ∧
    addComment (sampleEnv 'e' 50) scenarioState "b" "nowhere" (some "nice") =
      (.error 404 "Post not found", scenarioState) := by
  refine ⟨by decide, ?_, by decide, by decide⟩
  intro u
  have h : (addComment (sampleEnv 'e' 50) scenarioState "b" "d" (some "nice")).1 =
      .error 500 "Server error" := by decide
  rw [h]
  exact fun e => Response.noConfusion e

theorem find?_of_mem_nodup {α : Type} (key : α → String) (l : List α) (x : α)
    (hx : x ∈ l) (hnd : (l.map key).Nodup) :
    l.find? (fun a => decide (key a = key x)) = some x := by
  induction l with
  | nil => cases hx
  | cons a l ih =>
    have hnd1 : (∀ y ∈ l, ¬ key y = key a) ∧ (l.map key).Nodup := by simpa using hnd
    rcases List.mem_cons.mp hx with rfl | hmem
    · simp [List.find?_cons]
    · have hne : ¬ key a = key x := fun e => hnd1.1 x hmem e.symm
      simp only [List.find?_cons, hne, decide_False]
      exact ih hmem hnd1.2

/-- C12. In every store reachable from the empty store, for the users registered under
any two ids `a` and `b`: `b` is in `a.following` exactly when `a` is in `b.followers`, and
`a` is in neither of its own lists. When the stored user ids are pairwise distinct this
holds for any two records of the user store. -/
theorem follow_lists_consistent (s : State) (hs : Reachable s) :
    (∀ (a b : String) (ua ub : User),
      findUserById s.users a = some ua → findUserById s.users b = some ub →
      (b ∈ ua.following ↔ a ∈ ub.followers) ∧ a ∉ ua.following ∧ a ∉ ua.followers) ∧
    ((s.users.map User.id).Nodup →
      ∀ ua ∈ s.users, ∀ ub ∈ s.users,
        (ub.id ∈ ua.following ↔ ua.id ∈ ub.followers) ∧
        ua.id ∉ ua.following ∧ ua.id ∉ ua.followers) := by
  have hw := (reachable_wellFormed hs).users
  have h1 : ∀ (a b : String) (ua ub : User),
      findUserById s.users a = some ua → findUserById s.users b = some ub →
      (b ∈ ua.following ↔ a ∈ ub.followers) ∧ a ∉ ua.following ∧ a ∉ ua.followers :=
    fun a b ua ub ha hb => ⟨hw.pair a b ua ub ha hb, hw.notSelf a ua ha⟩
  refine ⟨h1, ?_⟩
  intro hnd ua hua ub hub
  exact h1 ua.id ub.id ua ub (find?_of_mem_nodup User.id s.users ua hua hnd)
    (find?_of_mem_nodup User.id s.users ub hub hnd)

set_option maxRecDepth 100000 in
theorem follow_lists_consistent_witness :
    (∀ (a b : String) (ua ub : User),
      findUserById scenarioState.users a = some ua →
      findUserById scenarioState.users b = some ub →
      (b ∈ ua.following ↔ a ∈ ub.followers) ∧ a ∉ ua.following ∧ a ∉ ua.followers) ∧
    ((scenarioState.users.map User.id).Nodup →
      ∀ ua ∈ scenarioState.users, ∀ ub ∈ scenarioState.users,
        (ub.id ∈ ua.following ↔ ua.id ∈ ub.followers) ∧
        ua.id ∉ ua.following ∧ ua.id ∉ ua.followers) :=
  follow_lists_consistent scenarioState (reachable_run Reachable.init scenarioRequests)

/-! ## Registration -/

theorem find?_isSome_iff_exists {α : Type} (p : α → Bool) (l : List α) :
    (l.find? p).isSome = true ↔ ∃ x ∈ l, p x = true := by
  simp

theorem register_cases (env : Env) (s : State)
    (username email password fullName bio : Option String) :
    ((truthy username = false ∨ truthy email = false ∨ truthy password = false) →
      register env s username email password fullName bio =
        (.error 400 "Username, email, and password are required", s)) ∧
    (truthy username = true → truthy email = true → truthy password = true →
      (∃ v ∈ s.users, v.email = email.getD "") →
      register env s username email password fullName bio =
        (.error 400 "Email already registered", s)) ∧
    (truthy username = true → truthy email = true → truthy password = true →
      (∀ v ∈ s.users, v.email ≠ email.getD "") →
      (∃ v ∈ s.users, v.username = username.getD "") →
      register env s username email password fullName bio =
        (.error 400 "Username already taken", s)) ∧
    (truthy username = true → truthy email = true → truthy password = true →
      (∀ v ∈ s.users, v.email ≠ email.getD "") →
      (∀ v ∈ s.users, v.username ≠ username.getD "") →
      register env s username email password fullName bio =
        (.registered "User registered successfully"
          ⟨env.uuid 0, username.getD "", email.getD "", orElse fullName (username.getD ""),
            orElse bio "", ""⟩ (env.uuid 0) (username.getD ""),
          { s with
            users := s.users ++ [newUserRecord env username email password fullName bio] })) := by
  refine ⟨?_, ?_, ?_, ?_⟩
  · intro h
    have : (!truthy username || !truthy email || !truthy password) = true := by
      rcases h with h | h | h <;> simp [h]
    simp [register_unfold, this]
  · intro hu he hp ⟨v, hv, hve⟩
    have h2 : (s.users.find? (fun user => decide (user.email = email.getD ""))).isSome = true :=
      (find?_isSome_iff_exists _ _).mpr ⟨v, hv, by simpa using hve⟩
    simp [register_unfold, hu, he, hp, h2]
  · intro hu he hp hne ⟨v, hv, hvu⟩
    have h2 : (s.users.find? (fun user => decide (user.email = email.getD ""))).isSome = false := by
      rw [Bool.eq_false_iff]
      intro h
      obtain ⟨w, hw, hwe⟩ := (find?_isSome_iff_exists _ _).mp h
      exact hne w hw (by simpa using hwe)
    have h3 : (s.users.find? (fun user => decide (user.username = username.getD ""))).isSome =
        true :=
      (find?_isSome_iff_exists _ _).mpr ⟨v, hv, by simpa using hvu⟩
    simp [register_unfold, hu, he, hp, h2, h3]
  · intro hu he hp hne hnu
    have h2 : (s.users.find? (fun user => decide (user.email = email.getD ""))).isSome = false := by
      rw [Bool.eq_false_iff]
      intro h
      obtain ⟨w, hw, hwe⟩ := (find?_isSome_iff_exists _ _).mp h
      exact hne w hw (by simpa using hwe)
    have h3 : (s.users.find? (fun user => decide (user.username = username.getD ""))).isSome =
        false := by
      rw [Bool.eq_false_iff]
      intro h
      obtain ⟨w, hw, hwe⟩ := (find?_isSome_iff_exists _ _).mp h
      exact hnu w hw (by simpa using hwe)
    simp [register_unfold, hu, he, hp, h2, h3, newUserRecord]

theorem updateFirst_map_eq {α β : Type} (p : α → Bool) (f : α → α) (g : α → β)
    (hg : ∀ x, g (f x) = g x) (l : List α) : (updateFirst p f l).map g = l.map g := by
  induction l with
  | nil => rfl
  | cons a l ih =>
    by_cases h : p a = true
    · simp [updateFirst, h, hg]
    · simp [updateFirst, h, ih]

theorem updateProfile_users_map {β : Type} (g : User → β) (s : State) (caller id : String)
    (fullName bio file : Option String)
    (hg : ∀ u, g (applyProfileFields fullName bio file u) = g u) :
    (updateProfile s caller id fullName bio file).2.users.map g = s.users.map g := by
  unfold updateProfile
  cases findUserById s.users id with
  | none => rfl
  | some user =>
    simp only []
    split_ifs
    · rfl
    · exact updateFirst_map_eq _ _ g hg s.users

theorem toggleFollow_users_map {β : Type} (g : User → β) (env : Env) (s : State)
    (caller target : String)
    (h1 : ∀ x u, g (pushFollower x u) = g u) (h2 : ∀ x u, g (pushFollowing x u) = g u)
    (h3 : ∀ x u, g (dropFollower x u) = g u) (h4 : ∀ x u, g (dropFollowing x u) = g u) :
    (toggleFollow env s caller target).2.users.map g = s.users.map g := by
  unfold toggleFollow
  split_ifs
  · rfl
  · cases findUserById s.users target <;> cases findUserById s.users caller <;>
      first
        | rfl
        | (simp only []
           split_ifs
           · rw [updateFirst_map_eq _ _ g (h3 caller), updateFirst_map_eq _ _ g (h4 target)]
           · rw [updateFirst_map_eq _ _ g (h1 caller), updateFirst_map_eq _ _ g (h2 target)])

theorem applyProfileFields_email (fullName bio file : Option String) (u : User) :
    (applyProfileFields fullName bio file u).email = u.email := by
  unfold applyProfileFields
  cases bio <;> cases file <;> simp <;> split_ifs <;> rfl

theorem applyProfileFields_username (fullName bio file : Option String) (u : User) :
    (applyProfileFields fullName bio file u).username = u.username := by
  unfold applyProfileFields
  cases bio <;> cases file <;> simp <;> split_ifs <;> rfl

theorem register_uniqueAccounts (env : Env) (s : State)
    (username email password fullName bio : Option String) (h : UniqueAccounts s.users) :
    UniqueAccounts (register env s username email password fullName bio).2.users := by
  rw [register_unfold]
  split_ifs with h1 h2 h3
  · exact h
  · exact h
  · exact h
  · have he : ∀ v ∈ s.users, v.email ≠ email.getD "" := by
      intro v hv e
      exact h2 ((find?_isSome_iff_exists _ _).mpr ⟨v, hv, by simpa using e⟩)
    have hu : ∀ v ∈ s.users, v.username ≠ username.getD "" := by
      intro v hv e
      exact h3 ((find?_isSome_iff_exists _ _).mpr ⟨v, hv, by simpa using e⟩)
    constructor
    · simp only [List.map_append, List.map_cons, List.map_nil]
      rw [List.nodup_append]
      refine ⟨h.1, List.nodup_singleton _, ?_⟩
      intro x hx hx2
      obtain ⟨v, hv, rfl⟩ := List.mem_map.mp hx
      exact he v hv (by simpa using hx2)
    · simp only [List.map_append, List.map_cons, List.map_nil]
      rw [List.nodup_append]
      refine ⟨h.2, List.nodup_singleton _, ?_⟩
      intro x hx hx2
      obtain ⟨v, hv, rfl⟩ := List.mem_map.mp hx
      exact hu v hv (by simpa using hx2)

theorem handle_uniqueAccounts (env : Env) (s : State) (r : Request)
    (h : UniqueAccounts s.users) : UniqueAccounts (handle env s r).2.users := by
  cases r with
  | register username email password fullName bio =>
    exact register_uniqueAccounts env s username email password fullName bio h
  | login email password => simpa [handle, login_state] using h
  | updateProfile caller id fullName bio file =>
    unfold UniqueAccounts
    simp only [handle]
    rw [updateProfile_users_map User.email s caller id fullName bio file
        (applyProfileFields_email fullName bio file),
      updateProfile_users_map User.username s caller id fullName bio file
        (applyProfileFields_username fullName bio file)]
    exact h
  | createPost caller content tags file => simpa [handle, createPost_users] using h
  | feed caller => simpa [handle, feed_state] using h
  | trending limitQuery => simpa [handle, trending_state] using h
  | toggleLike caller postId => simpa [handle, toggleLike_users] using h
  | addComment caller postId content => simpa [handle, addComment_users] using h
  | toggleFollow caller target =>
    unfold UniqueAccounts
    simp only [handle]
    rw [toggleFollow_users_map User.email env s caller target (fun _ _ => rfl)
        (fun _ _ => rfl) (fun _ _ => rfl) (fun _ _ => rfl),
      toggleFollow_users_map User.username env s caller target (fun _ _ => rfl)
        (fun _ _ => rfl) (fun _ _ => rfl) (fun _ _ => rfl)]
    exact h
  | listNotifications caller => simpa [handle, listNotifications] using h
  | markRead caller id => simpa [handle, (markRead_users_posts s caller id).1] using h
  | search q => simpa [handle, search_state] using h

/-- Requests handled one after the other, each to its end, keep emails and usernames
distinct. -/
theorem run_uniqueAccounts (rs : List (Env × Request)) (s : State)
    (h : UniqueAccounts s.users) : UniqueAccounts (run s rs).users := by
  induction rs generalizing s with
  | nil => exact h
  | cons er rest ih => exact ih _ (handle_uniqueAccounts er.1 s er.2 h)

theorem register_duplicate_unchanged (env : Env) (s : State)
    (username email password fullName bio : Option String)
    (h : (∃ v ∈ s.users, v.email = email.getD "") ∨
      (∃ v ∈ s.users, v.username = username.getD "")) :
    (register env s username email password fullName bio).2 = s ∧
    (register env s username email password fullName bio).1.isError = true := by
  rw [register_unfold]
  split_ifs with h1 h2 h3
  · exact ⟨rfl, rfl⟩
  · exact ⟨rfl, rfl⟩
  · exact ⟨rfl, rfl⟩
  · exfalso
    rcases h with ⟨v, hv, e⟩ | ⟨v, hv, e⟩
    · exact h2 ((find?_isSome_iff_exists _ _).mpr ⟨v, hv, by simpa using e⟩)
    · exact h3 ((find?_isSome_iff_exists _ _).mpr ⟨v, hv, by simpa using e⟩)

/-! ## Login and like notifications -/

/-- C14. For every store and non-empty emails and passwords, a login whose email matches
no stored user and a login whose email matches a user whose password does not verify get
the same answer, status 400 with `Invalid credentials`, and both leave the store as it
was. -/
theorem login_uniform_failure (env : Env) (s : State) (email1 password1 email2 password2 : String)
    (user : User) (he1 : email1 ≠ "") (hp1 : password1 ≠ "") (he2 : email2 ≠ "")
    (hp2 : password2 ≠ "")
    (hnone : s.users.find? (fun u => decide (u.email = email1)) = none)
    (hsome : s.users.find? (fun u => decide (u.email = email2)) = some user)
    (hbad : env.bcryptCompare password2 user.password = false) :
    login env s (some email1) (some password1) = (.error 400 "Invalid credentials", s) ∧
    login env s (some email2) (some password2) = (.error 400 "Invalid credentials", s) ∧
    (login env s (some email1) (some password1)).1 =
      (login env s (some email2) (some password2)).1 := by
  have h1 : login env s (some email1) (some password1) =
      (.error 400 "Invalid credentials", s) := by
    simp [login, truthy, he1, hp1, hnone]
  have h2 : login env s (some email2) (some password2) =
      (.error 400 "Invalid credentials", s) := by
    simp [login, truthy, he2, hp2, hsome, hbad]
  exact ⟨h1, h2, by rw [h1, h2]⟩

set_option maxRecDepth 100000 in
theorem login_uniform_failure_witness :
    login (sampleEnv 'e' 50) aliceBobState (some "nobody@example.org") (some "pw1") =
      (.error 400 "Invalid credentials", aliceBobState) ∧
    login (sampleEnv 'e' 50) aliceBobState (some "alice@example.org") (some "wrong") =
      (.error 400 "Invalid credentials", aliceBobState) ∧
    (login (sampleEnv 'e' 50) aliceBobState (some "nobody@example.org") (some "pw1")).1 =
      (login (sampleEnv 'e' 50) aliceBobState (some "alice@example.org") (some "wrong")).1 :=
  login_uniform_failure (sampleEnv 'e' 50) aliceBobState "nobody@example.org" "pw1"
    "alice@example.org" "wrong"
    ⟨"a", "alice", "alice@example.org", "hashed:pw1", "alice", "", "", 10, [], []⟩
    (by decide) (by decide) (by decide) (by decide) (by decide) (by decide) (by decide)

/-- C15. For every store, registered caller `u` and existing post `p`: when `u` is not
yet among the likers and is not the owner, the like call appends exactly one
notification, of kind `like`, unread, addressed to the owner and referencing `p`; in
every other case (an unlike, or a like of one's own post) the notification store is left
as it was. -/
theorem like_notification_iff (env : Env) (s : State) (u p : String) (post : Post)
    (user : User) (hp : findPostById s.posts p = some post)
    (hu : findUserById s.users u = some user) :
    ((u ∉ post.likes ∧ post.userId ≠ u) →
      ∃ n : Notification,
        (toggleLike env s u p).2.notifications = s.notifications ++ [n] ∧
        n.type = "like" ∧ n.read = false ∧ n.userId = post.userId ∧ n.postId = some p) ∧
    (¬ (u ∉ post.likes ∧ post.userId ≠ u) →
      (toggleLike env s u p).2.notifications = s.notifications) := by
  have hid : post.id = p := findPostById_id hp
  constructor
  · rintro ⟨hn, ho⟩
    rw [toggleLike_like env s u p post user hp hu hn]
    refine ⟨likeNotification env user post, by simp [ho], rfl, rfl, rfl, ?_⟩
    simp [likeNotification, hid]
  · intro h
    by_cases hm : u ∈ post.likes
    · rw [toggleLike_unlike env s u p post hp hm]
    · have ho : post.userId = u := by
        by_contra ho
        exact h ⟨hm, ho⟩
      rw [toggleLike_like env s u p post user hp hu hm]
      simp [ho]

set_option maxRecDepth 100000 in
theorem like_notification_iff_witness :
    ((("b" : String) ∉ ([] : List String) ∧ ("a" : String) ≠ "b") →
      ∃ n : Notification,
        (toggleLike (sampleEnv 'e' 50) scenarioState "b" "d").2.notifications =
          scenarioState.notifications ++ [n] ∧
        n.type = "like" ∧ n.read = false ∧ n.userId = "a" ∧ n.postId = some "d") ∧
    (¬ (("b" : String) ∉ ([] : List String) ∧ ("a" : String) ≠ "b") →
      (toggleLike (sampleEnv 'e' 50) scenarioState "b" "d").2.notifications =
        scenarioState.notifications) :=
  like_notification_iff (sampleEnv 'e' 50) scenarioState "b" "d"
    ⟨"d", "a", "hi", "", [], [], [], 40⟩ _ scenarioState_lookups.2.2
    scenarioState_lookups.2.1

/-! ## Notifications -/

theorem updateFirst_split {α : Type} (p : α → Bool) (f : α → α) (l : List α) (x : α)
    (h : l.find? p = some x) :
    ∃ pre post, l = pre ++ x :: post ∧ (∀ y ∈ pre, p y = false) ∧
      updateFirst p f l = pre ++ f x :: post := by
  induction l with
  | nil => simp at h
  | cons a l ih =>
    by_cases hpa : p a = true
    · have hax : a = x := by simpa [List.find?_cons, hpa] using h
      subst hax
      exact ⟨[], l, rfl, by simp, by simp [updateFirst, hpa]⟩
    · have hl : l.find? p = some x := by simpa [List.find?_cons, hpa] using h
      obtain ⟨pre, post, h1, h2, h3⟩ := ih hl
      refine ⟨a :: pre, post, by simp [h1], ?_, by simp [updateFirst, hpa, h3]⟩
      intro y hy
      rcases List.mem_cons.mp hy with rfl | hy1
      · simpa using hpa
      · exact h2 y hy1

theorem updateFirst_eq_self {α : Type} (p : α → Bool) (f : α → α) (l : List α)
    (h : ∀ x, l.find? p = some x → f x = x) : updateFirst p f l = l := by
  cases hx : l.find? p with
  | none =>
    induction l with
    | nil => rfl
    | cons a l ih =>
      by_cases hpa : p a = true
      · simp [List.find?_cons, hpa] at hx
      · have hl : l.find? p = none := by simpa [List.find?_cons, hpa] using hx
        simp [updateFirst, hpa, ih (fun x hx1 => by simp [hl] at hx1) hl]
  | some x =>
    obtain ⟨pre, post, h1, _, h3⟩ := updateFirst_split p f l x hx
    rw [h3, h x hx, ← h1]

theorem updateFirst_getElem? {α : Type} (p : α → Bool) (f : α → α) (l : List α) (i : Nat)
    (m : α) (h : l[i]? = some m) :
    (updateFirst p f l)[i]? = some m ∨ (updateFirst p f l)[i]? = some (f m) := by
  induction l generalizing i with
  | nil => simp at h
  | cons a l ih =>
    by_cases hpa : p a = true
    · cases i with
      | zero =>
        right
        have : a = m := by simpa using h
        subst this
        simp [updateFirst, hpa]
      | succ j =>
        left
        simpa [updateFirst, hpa] using h
    · cases i with
      | zero =>
        left
        simpa [updateFirst, hpa] using h
      | succ j =>
        have hj : l[j]? = some m := by simpa using h
        simpa [updateFirst, hpa] using ih j hj

theorem markRead_ok (s : State) (caller id : String) (n : Notification)
    (hn : findNotificationById s.notifications id = some n) (hc : n.userId = caller) :
    markRead s caller id =
      (.markedRead "Notification marked as read",
        { s with
          notifications :=
            updateFirst (fun m => decide (m.id = id)) setRead s.notifications }) := by
  unfold findNotificationById at hn
  simp [markRead, hn, hc]

theorem findNotificationById_markRead (s : State) (caller id : String) (n : Notification)
    (hn : findNotificationById s.notifications id = some n) (hc : n.userId = caller) :
    findNotificationById (markRead s caller id).2.notifications id = some (setRead n) := by
  rw [markRead_ok s caller id n hn hc]
  unfold findNotificationById at hn ⊢
  have := find?_updateFirst_key Notification.id setRead (fun _ => rfl) id id s.notifications
  simp only [this, hn, if_true, Option.map_some']

/-- What a request does to the notification store: it appends, or it sets the
read flag of the first notification with some id. -/
theorem handle_notifications (env : Env) (s : State) (r : Request) :
    (∃ extra, (handle env s r).2.notifications = s.notifications ++ extra) ∨
    (∃ id, (handle env s r).2.notifications =
      updateFirst (fun m => decide (m.id = id)) setRead s.notifications) := by
  cases r with
  | register username email password fullName bio =>
    left
    refine ⟨[], ?_⟩
    simp only [handle, register_unfold]
    split_ifs <;> simp
  | login email password => exact Or.inl ⟨[], by simp [handle, login_state]⟩
  | updateProfile caller id fullName bio file =>
    left
    refine ⟨[], ?_⟩
    simp only [handle, updateProfile]
    cases findUserById s.users id with
    | none => simp
    | some user =>
      simp only []
      split_ifs <;> simp
  | createPost caller content tags file =>
    left
    simp only [handle, createPost]
    split_ifs
    · exact ⟨[], by simp⟩
    · cases findUserById s.users caller with
      | none => exact ⟨[], by simp⟩
      | some user => exact ⟨_, rfl⟩
  | feed caller => exact Or.inl ⟨[], by simp [handle, feed_state]⟩
  | trending limitQuery => exact Or.inl ⟨[], by simp [handle, trending_state]⟩
  | toggleLike caller postId =>
    left
    simp only [handle, toggleLike]
    cases findPostById s.posts postId with
    | none => exact ⟨[], by simp⟩
    | some post =>
      simp only []
      split_ifs
      · cases findUserById s.users caller with
        | none => exact ⟨[], by simp⟩
        | some user => exact ⟨_, rfl⟩
      · exact ⟨[], by simp⟩
      · exact ⟨[], by simp⟩
  | addComment caller postId content =>
    left
    simp only [handle, addComment]
    split_ifs
    · exact ⟨[], by simp⟩
    · cases findPostById s.posts postId with
      | none => exact ⟨[], by simp⟩
      | some post =>
        simp only []
        split_ifs
        · cases findUserById s.users caller with
          | none => exact ⟨[], by simp⟩
          | some user => exact ⟨_, rfl⟩
        · exact ⟨[], by simp⟩
  | toggleFollow caller target =>
    left
    simp only [handle, toggleFollow]
    split_ifs
    · exact ⟨[], by simp⟩
    · cases findUserById s.users target with
      | none => cases findUserById s.users caller <;> exact ⟨[], by simp⟩
      | some tu =>
        cases findUserById s.users caller with
        | none => exact ⟨[], by simp⟩
        | some cu =>
          simp only []
          split_ifs
          · exact ⟨[], by simp⟩
          · exact ⟨_, rfl⟩
  | listNotifications caller => exact Or.inl ⟨[], by simp [handle, listNotifications]⟩
  | markRead caller id =>
    simp only [handle, markRead]
    cases s.notifications.find? (fun n => decide (n.id = id)) with
    | none => exact Or.inl ⟨[], by simp⟩
    | some n =>
      simp only []
      split_ifs
      · exact Or.inl ⟨[], by simp⟩
      · exact Or.inr ⟨id, rfl⟩
  | search q => exact Or.inl ⟨[], by simp [handle, search_state]⟩

/-- C16. For every store and every notification found under an id whose recipient is
the caller: mark-read succeeds and the notification found under that id afterwards is the
same one with `read` true; when it is already read the whole store is left as it was, so
a second mark-read changes nothing; and no request ever turns a read notification back:
a notification that is read stays, at its position, exactly as it is. -/
theorem markRead_idempotent (env : Env) (s : State) (caller id : String) (n : Notification)
    (r : Request) (hn : findNotificationById s.notifications id = some n)
    (hc : n.userId = caller) :
    (markRead s caller id).1 = .markedRead "Notification marked as read" ∧
    findNotificationById (markRead s caller id).2.notifications id =
      some { n with read := true } ∧
    (n.read = true → markRead s caller id = (.markedRead "Notification marked as read", s)) ∧
    markRead (markRead s caller id).2 caller id =
      (.markedRead "Notification marked as read", (markRead s caller id).2) ∧
    (∀ (i : Nat) (m : Notification), s.notifications[i]? = some m → m.read = true →
      (handle env s r).2.notifications[i]? = some m) := by
  have hread : ∀ (t : State) (k : Notification),
      findNotificationById t.notifications id = some k → k.userId = caller → k.read = true →
      markRead t caller id = (.markedRead "Notification marked as read", t) := by
    intro t k hk hkc hkr
    rw [markRead_ok t caller id k hk hkc]
    have : updateFirst (fun m => decide (m.id = id)) setRead t.notifications =
        t.notifications := by
      apply updateFirst_eq_self
      intro x hx
      have hxk : x = k := by
        unfold findNotificationById at hk
        rw [hk] at hx
        exact (Option.some.inj hx).symm
      rw [hxk]
      cases k
      simp only [setRead] at hkr ⊢
      simp [hkr]
    rw [this]
  refine ⟨by rw [markRead_ok s caller id n hn hc], findNotificationById_markRead s caller id n hn hc,
    hread s n hn hc, ?_, ?_⟩
  · exact hread _ (setRead n) (findNotificationById_markRead s caller id n hn hc) hc rfl
  · intro i m hm hr
    rcases handle_notifications env s r with ⟨extra, h⟩ | ⟨x, h⟩
    · rw [h, List.getElem?_append_left (by
        have := (List.getElem?_eq_some.mp hm).1
        exact this)]
      exact hm
    · rw [h]
      have hset : setRead m = m := by
        cases m
        simp only [setRead] at hr ⊢
        simp [hr]
      rcases updateFirst_getElem? (fun m => decide (m.id = x)) setRead s.notifications i m hm
        with h1 | h1
      · exact h1
      · rw [h1, hset]

set_option maxRecDepth 100000 in
theorem markRead_idempotent_witness :
    (markRead scenarioState "b" "dd").1 = .markedRead "Notification marked as read" ∧
    findNotificationById (markRead scenarioState "b" "dd").2.notifications "dd" =
      some ⟨"dd", "b", "new_post", "alice created a new post", some "d", none, 41, true⟩ ∧
    (false = true →
      markRead scenarioState "b" "dd" =
        (.markedRead "Notification marked as read", scenarioState)) ∧
    markRead (markRead scenarioState "b" "dd").2 "b" "dd" =
      (.markedRead "Notification marked as read", (markRead scenarioState "b" "dd").2) ∧
    (∀ (i : Nat) (m : Notification), scenarioState.notifications[i]? = some m →
      m.read = true →
      (handle (sampleEnv 'e' 50) scenarioState (.markRead "b" "dd")).2.notifications[i]? =
        some m) :=
  markRead_idempotent (sampleEnv 'e' 50) scenarioState "b" "dd"
    ⟨"dd", "b", "new_post", "alice created a new post", some "d", none, 41, false⟩
    (.markRead "b" "dd") (by decide) (by decide)

/-- C17. For every store, mark-read answers status 404 with `Notification not found` when
no stored notification has the id, and status 403 with `Not authorized` when the
notification found under the id has another recipient than the caller; in both cases
the store, and so every read flag, is left as it was. -/
theorem markRead_rejections (s : State) (caller id : String) :
    (findNotificationById s.notifications id = none →
      markRead s caller id = (.error 404 "Notification not found", s)) ∧
    (∀ n : Notification, findNotificationById s.notifications id = some n →
      n.userId ≠ caller → markRead s caller id = (.error 403 "Not authorized", s)) := by
  constructor
  · intro h
    unfold findNotificationById at h
    simp [markRead, h]
  · intro n h hc
    unfold findNotificationById at h
    simp [markRead, h, hc]

set_option maxRecDepth 100000 in
theorem markRead_rejections_witness :
    markRead scenarioState "b" "nowhere" =
      (.error 404 "Notification not found", scenarioState) ∧
    markRead scenarioState "a" "dd" = (.error 403 "Not authorized", scenarioState) :=
  ⟨(markRead_rejections scenarioState "b" "nowhere").1 (by decide),
    (markRead_rejections scenarioState "a" "dd").2
      ⟨"dd", "b", "new_post", "alice created a new post", some "d", none, 41, false⟩
      (by decide) (by decide)⟩

/-- C18. For every store and user id `u`, the notification list answered for `u` is a
rearrangement of the stored notifications whose recipient is `u`, with creation times
non-increasing along it; two such notifications where the one stored first is at
least as new as the other keep their store order, in particular when their times are
equal; and the store is left as it was. -/
theorem listNotifications_sorted (s : State) (u : String) :
    ∃ items : List Notification,
      listNotifications s u = (.notificationList items, s) ∧
      items.Perm (s.notifications.filter (fun n => decide (n.userId = u))) ∧
      (∀ n : Notification, n ∈ items ↔ (n ∈ s.notifications ∧ n.userId = u)) ∧
      items.Pairwise (fun n m => m.createdAt ≤ n.createdAt) ∧
      (∀ n m : Notification, List.Sublist [n, m] s.notifications → n.userId = u →
        m.userId = u → m.createdAt ≤ n.createdAt → List.Sublist [n, m] items) := by
  haveI : IsTotal Notification (fun a b => notificationCmp a b ≤ 0) :=
    ⟨fun a b => by
      simp only [notificationCmp]
      omega⟩
  haveI : IsTrans Notification (fun a b => notificationCmp a b ≤ 0) :=
    ⟨fun a b c h1 h2 => by
      simp only [notificationCmp] at h1 h2 ⊢
      omega⟩
  refine ⟨_, rfl, ?_, ?_, ?_, ?_⟩
  · exact List.perm_insertionSort _ _
  · intro n
    simp [jsSort, List.mem_insertionSort, List.mem_filter]
  · have := List.sorted_insertionSort (fun a b => notificationCmp a b ≤ 0)
      (s.notifications.filter (fun n => decide (n.userId = u)))
    refine List.Pairwise.imp ?_ this
    intro a b h
    simp only [notificationCmp] at h
    omega
  · intro n m hsub hn hm hle
    have hf : List.Sublist [n, m] (s.notifications.filter (fun n => decide (n.userId = u))) := by
      have := hsub.filter (fun n => decide (n.userId = u))
      simpa [List.filter_cons, hn, hm] using this
    apply List.pair_sublist_insertionSort _ hf
    simp only [notificationCmp]
    omega

set_option maxRecDepth 100000 in
/-- Two notifications of alice with equal creation times are listed in the order in
which they were stored. -/
theorem listNotifications_tie_example :
    listNotifications tiedNotificationsState "a" =
      (.notificationList
        [⟨"x", "a", "follow", "bob started following you", none, none, 50, false⟩,
          ⟨"y", "a", "follow", "carol started following you", none, none, 50, false⟩],
        tiedNotificationsState) := by
  decide

/-! ## Profile update -/

set_option maxRecDepth 100000 in
/-- C19, as stated, fails: alice updating her own profile with the empty string supplied as
display name gets a success answer, and her display name is still `alice`, not the
supplied empty string. -/
theorem updateProfile_empty_fullName_kept :
    (updateProfile aliceBobState "a" "a" (some "") none none).1 =
      .profileUpdated "Profile updated successfully" ⟨"a", "alice", "alice", "", ""⟩ ∧
    (∃ u : User,
      findUserById (updateProfile aliceBobState "a" "a" (some "") none none).2.users "a" =
        some u ∧
      u.fullName = "alice" ∧ u.fullName ≠ "") := by
  refine ⟨by decide, ⟨"a", "alice", "alice@example.org", "hashed:pw1", "alice", "", "", 10, [], []⟩,
    by decide, by decide, by decide⟩

theorem updateProfile_self (s : State) (id : String) (fullName bio file : Option String)
    (user : User) (hu : findUserById s.users id = some user) :
    updateProfile s id id fullName bio file =
      (.profileUpdated "Profile updated successfully"
          ⟨(applyProfileFields fullName bio file user).id,
            (applyProfileFields fullName bio file user).username,
            (applyProfileFields fullName bio file user).fullName,
            (applyProfileFields fullName bio file user).bio,
            (applyProfileFields fullName bio file user).avatar⟩,
        { s with
          users :=
            updateFirst (fun u => decide (u.id = id)) (applyProfileFields fullName bio file)
              s.users }) := by
  have hid : user.id = id := findUserById_id hu
  simp [updateProfile, hu, hid]

/-- C19 (amended). For every store and every user found under the id `id`: update-profile
by a caller with another id is answered `Not authorized` and changes nothing; by the user
itself it succeeds and replaces that one record, all other records staying in place. In
the new record the display name is the supplied value when a non-empty one was supplied
and is unchanged when none or the empty string was supplied; the bio is the supplied
value whenever one was supplied, the empty string included, and unchanged otherwise; the
avatar is the upload path of the supplied file and unchanged without a file; id,
username, email, password hash, creation time, followers and following are unchanged. -/
theorem updateProfile_frame (s : State) (caller id : String) (fullName bio file : Option String)
    (user : User) (hu : findUserById s.users id = some user) :
    (caller ≠ id →
      updateProfile s caller id fullName bio file = (.error 403 "Not authorized", s)) ∧
    (caller = id →
      ∃ (user1 : User) (before after : List User),
        updateProfile s caller id fullName bio file =
          (.profileUpdated "Profile updated successfully"
              ⟨user1.id, user1.username, user1.fullName, user1.bio, user1.avatar⟩,
            { s with users := before ++ user1 :: after }) ∧
        s.users = before ++ user :: after ∧
        (∀ v, fullName = some v → v ≠ "" → user1.fullName = v) ∧
        ((fullName = none ∨ fullName = some "") → user1.fullName = user.fullName) ∧
        (∀ b, bio = some b → user1.bio = b) ∧
        (bio = none → user1.bio = user.bio) ∧
        (∀ f, file = some f → user1.avatar = "/uploads/" ++ f) ∧
        (file = none → user1.avatar = user.avatar) ∧
        user1.id = user.id ∧ user1.username = user.username ∧ user1.email = user.email ∧
        user1.password = user.password ∧ user1.createdAt = user.createdAt ∧
        user1.followers = user.followers ∧ user1.following = user.following) := by
  have hid : user.id = id := findUserById_id hu
  constructor
  · intro hc
    simp [updateProfile, hu, hid, hc]
  · rintro rfl
    obtain ⟨before, after, h1, _, h3⟩ :=
      updateFirst_split (fun u : User => decide (u.id = caller))
        (applyProfileFields fullName bio file) s.users user hu
    refine ⟨applyProfileFields fullName bio file user, before, after, ?_, h1, ?_, ?_, ?_, ?_,
      ?_, ?_, ?_, ?_, ?_, ?_, ?_, ?_, ?_⟩
    · rw [updateProfile_self s caller fullName bio file user hu, h3]
    · rintro v rfl hv
      cases bio <;> cases file <;> simp [applyProfileFields, truthy, hv]
    · rintro (rfl | rfl) <;> cases bio <;> cases file <;> simp [applyProfileFields, truthy]
    · rintro b rfl
      cases file <;> simp [applyProfileFields]
    · rintro rfl
      cases file <;> simp [applyProfileFields] <;> split_ifs <;> rfl
    · rintro f rfl
      cases bio <;> simp [applyProfileFields]
    · rintro rfl
      cases bio <;> simp [applyProfileFields] <;> split_ifs <;> rfl
    · exact applyProfileFields_id fullName bio file user
    · exact applyProfileFields_username fullName bio file user
    · exact applyProfileFields_email fullName bio file user
    · unfold applyProfileFields
      cases bio <;> cases file <;> simp <;> split_ifs <;> rfl
    · unfold applyProfileFields
      cases bio <;> cases file <;> simp <;> split_ifs <;> rfl
    · exact applyProfileFields_followers fullName bio file user
    · exact applyProfileFields_following fullName bio file user

theorem updateProfile_frame_witness :
    (("a" : String) ≠ "a" →
      updateProfile aliceBobState "a" "a" (some "Alice A.") (some "") none =
        (.error 403 "Not authorized", aliceBobState)) ∧
    (("a" : String) = "a" →
      ∃ (user1 : User) (before after : List User),
        updateProfile aliceBobState "a" "a" (some "Alice A.") (some "") none =
          (.profileUpdated "Profile updated successfully"
              ⟨user1.id, user1.username, user1.fullName, user1.bio, user1.avatar⟩,
            { aliceBobState with users := before ++ user1 :: after }) ∧
        aliceBobState.users =
          before ++
            (⟨"a", "alice", "alice@example.org", "hashed:pw1", "alice", "", "", 10, [], []⟩ :
              User) :: after ∧
        (∀ v, some "Alice A." = some v → v ≠ "" → user1.fullName = v) ∧
        (((some "Alice A." : Option String) = none ∨ some "Alice A." = some "") →
          user1.fullName = "alice") ∧
        (∀ b, some "" = some b → user1.bio = b) ∧
        ((some "" : Option String) = none → user1.bio = "") ∧
        (∀ f, (none : Option String) = some f → user1.avatar = "/uploads/" ++ f) ∧
        ((none : Option String) = none → user1.avatar = "") ∧
        user1.id = "a" ∧ user1.username = "alice" ∧ user1.email = "alice@example.org" ∧
        user1.password = "hashed:pw1" ∧ user1.createdAt = 10 ∧
        user1.followers = [] ∧ user1.following = []) :=
  updateProfile_frame aliceBobState "a" "a" (some "Alice A.") (some "") none
    ⟨"a", "alice", "alice@example.org", "hashed:pw1", "alice", "", "", 10, [], []⟩
    aliceBobState_users.1

/-! ## Search results -/

theorem reachableAuth_reachable {s : State} (h : ReachableAuth s) : Reachable s := by
  induction h with
  | init => exact Reachable.init
  | step _ env r _ ih => exact Reachable.step ih env r
  | resume _ env username email password fullName bio hc ih =>
    exact Reachable.resume ih env username email password fullName bio hc

theorem registerResume_findUser_isSome (env : Env) (s : State)
    (username email password fullName bio : Option String) (x : String)
    (h : (findUserById s.users x).isSome = true) :
    (findUserById (registerResume env s username email password fullName bio).2.users
      x).isSome = true := by
  simp only [registerResume_state, findUserById_append]
  cases hx : findUserById s.users x with
  | none => simp [hx] at h
  | some v => simp

theorem handle_findUser_isSome (env : Env) (s : State) (r : Request) (x : String)
    (h : (findUserById s.users x).isSome = true) :
    (findUserById (handle env s r).2.users x).isSome = true := by
  cases r with
  | register username email password fullName bio =>
    rcases register_users env s username email password fullName bio with e | ⟨u, _, _, e⟩
    · simpa [handle, e] using h
    · simp only [handle, e, findUserById_append]
      cases hx : findUserById s.users x with
      | none => simp [hx] at h
      | some v => simp
  | login email password => simpa [handle, login_state] using h
  | updateProfile caller id fullName bio file =>
    simp only [handle, updateProfile]
    cases findUserById s.users id with
    | none => exact h
    | some user =>
      simp only []
      split_ifs
      · exact h
      · simp only [findUserById_updateFirst _ (applyProfileFields_id fullName bio file)]
        split_ifs <;> simpa using h
  | createPost caller content tags file => simpa [handle, createPost_users] using h
  | feed caller => simpa [handle, feed_state] using h
  | trending limitQuery => simpa [handle, trending_state] using h
  | toggleLike caller postId => simpa [handle, toggleLike_users] using h
  | addComment caller postId content => simpa [handle, addComment_users] using h
  | toggleFollow caller target =>
    simp only [handle, toggleFollow]
    split_ifs
    · exact h
    · cases findUserById s.users target with
      | none => cases findUserById s.users caller <;> exact h
      | some tu =>
        cases findUserById s.users caller with
        | none => exact h
        | some cu =>
          simp only []
          split_ifs
          · simp only [toggleFollow_find_unfollow]
            simpa using h
          · simp only [toggleFollow_find_follow]
            simpa using h
  | listNotifications caller => simpa [handle, listNotifications] using h
  | markRead caller id => simpa [handle, (markRead_users_posts s caller id).1] using h
  | search q => simpa [handle, search_state] using h

theorem handle_post_owners (env : Env) (s : State) (r : Request) :
    (handle env s r).2.posts.map Post.userId = s.posts.map Post.userId ∨
    ∃ c, r.mutatingCaller = some c ∧
      (handle env s r).2.posts.map Post.userId = s.posts.map Post.userId ++ [c] := by
  cases r with
  | register username email password fullName bio =>
    exact Or.inl (by simp [handle, register_posts])
  | login email password => exact Or.inl (by simp [handle, login_state])
  | updateProfile caller id fullName bio file =>
    exact Or.inl (by simp [handle, updateProfile_posts])
  | createPost caller content tags file =>
    simp only [handle, createPost]
    split_ifs
    · exact Or.inl rfl
    · right
      refine ⟨caller, rfl, ?_⟩
      cases findUserById s.users caller <;> simp [newPostRecord]
  | feed caller => exact Or.inl (by simp [handle, feed_state])
  | trending limitQuery => exact Or.inl (by simp [handle, trending_state])
  | toggleLike caller postId =>
    left
    simp only [handle, toggleLike_posts]
    cases findPostById s.posts postId with
    | none => rfl
    | some post =>
      simp only []
      split_ifs
      · exact updateFirst_map_eq _ (spliceLike caller) Post.userId (fun _ => rfl) s.posts
      · exact updateFirst_map_eq _ (pushLike caller) Post.userId (fun _ => rfl) s.posts
  | addComment caller postId content =>
    left
    simp only [handle, addComment]
    split_ifs
    · rfl
    · cases findPostById s.posts postId with
      | none => rfl
      | some post =>
        simp only []
        split_ifs
        · cases findUserById s.users caller <;>
            exact updateFirst_map_eq _ (pushComment (env.uuid 0)) Post.userId (fun _ => rfl)
              s.posts
        · exact updateFirst_map_eq _ (pushComment (env.uuid 0)) Post.userId (fun _ => rfl)
            s.posts
  | toggleFollow caller target => exact Or.inl (by simp [handle, toggleFollow_posts])
  | listNotifications caller => exact Or.inl (by simp [handle, listNotifications])
  | markRead caller id => exact Or.inl (by simp [handle, (markRead_users_posts s caller id).2])
  | search q => exact Or.inl (by simp [handle, search_state])

theorem reachableAuth_ownersRegistered {s : State} (h : ReachableAuth s) :
    OwnersRegistered s := by
  induction h with
  | init => intro x hx; simp [State.empty] at hx
  | step _ env r hc ih =>
    intro x hx
    apply handle_findUser_isSome
    rcases handle_post_owners env _ r with e | ⟨c, hcr, e⟩
    · rw [e] at hx
      exact ih x hx
    · rw [e] at hx
      rcases List.mem_append.mp hx with h1 | h1
      · exact ih x h1
      · have : x = c := by simpa using h1
        rw [this]
        exact hc c hcr
  | resume _ env username email password fullName bio _ ih =>
    intro x hx
    exact registerResume_findUser_isSome env _ username email password fullName bio x
      (ih x hx)

theorem searchEntry_some {users : List User} {post : Post}
    (h : (findUserById users post.userId).isSome = true) :
    ∃ e, searchEntry users post = some e ∧ e.post = post := by
  unfold searchEntry
  cases ho : findUserById users post.userId with
  | none => simp [ho] at h
  | some owner => exact ⟨_, rfl, rfl⟩

theorem searchEntry_owner {users : List User} {post : Post} {e : SearchEntry}
    (h : searchEntry users post = some e) :
    e.post = post ∧ ∃ owner, findUserById users post.userId = some owner ∧
      e.user = summaryOf owner := by
  unfold searchEntry at h
  cases ho : findUserById users post.userId with
  | none => simp [ho] at h
  | some owner =>
    simp only [ho, Option.some.injEq] at h
    rw [← h]
    exact ⟨rfl, owner, rfl, rfl⟩

theorem search_eq (env : Env) (s : State) (q : String) (hq : q ≠ "")
    (hown : ∀ p ∈ s.posts, postMatches env q p = true →
      (findUserById s.users p.userId).isSome = true) :
    search env s (some q) =
      (.searchResults ((s.users.filter (userMatches env q)).map summaryOf)
        ((s.posts.filter (postMatches env q)).filterMap (searchEntry s.users)), s) := by
  have htruthy : (!truthy (some q)) = false := by simp [truthy, hq]
  have hmap := mapThrowing_eq_filterMap (searchEntry s.users)
    (s.posts.filter (postMatches env q))
    (fun p hp => by
      obtain ⟨e, he, _⟩ :=
        searchEntry_some (hown p (List.mem_filter.mp hp).1 (List.mem_filter.mp hp).2)
      simp [he])
  unfold search
  simp only [htruthy, Bool.false_eq_true, if_false, Option.getD_some]
  unfold postMatches at hmap
  simp only [hmap]
  rfl

theorem jsIncludes_iff (a b : String) : jsIncludes a b = true ↔ b.data <:+: a.data := by
  simp [jsIncludes]

/-- Search on the stores the server reaches when each writing request comes from a
registered user, for every non-empty query `q`: the users answered are, in store order,
the summaries of exactly the stored users whose lower-cased username or display name
contains the lower-cased query; the posts answered are, in store order, exactly the
stored posts whose lower-cased content or one of whose lower-cased tags contains it, each
with the summary of its owner; and a query with the same lower-cased form gets the same
answer. -/
theorem search_matches (env : Env) (s : State) (q : String) (hs : ReachableAuth s)
    (hq : q ≠ "") :
    ∃ (users : List UserSummary) (posts : List SearchEntry),
      search env s (some q) = (.searchResults users posts, s) ∧
      users = (s.users.filter (userMatches env q)).map summaryOf ∧
      posts.map SearchEntry.post = s.posts.filter (postMatches env q) ∧
      (∀ e ∈ posts, ∃ owner, findUserById s.users e.post.userId = some owner ∧
        e.user = summaryOf owner) ∧
      (∀ u : User, userMatches env q u = true ↔
        ((env.toLowerCase q).data <:+: (env.toLowerCase u.username).data ∨
          (env.toLowerCase q).data <:+: (env.toLowerCase u.fullName).data)) ∧
      (∀ p : Post, postMatches env q p = true ↔
        ((env.toLowerCase q).data <:+: (env.toLowerCase p.content).data ∨
          ∃ t ∈ p.tags, (env.toLowerCase q).data <:+: (env.toLowerCase t).data)) ∧
      (∀ q2 : String, q2 ≠ "" → env.toLowerCase q2 = env.toLowerCase q →
        search env s (some q2) = search env s (some q)) := by
  have hown := reachableAuth_ownersRegistered hs
  have hown1 : ∀ (q1 : String), ∀ p ∈ s.posts, postMatches env q1 p = true →
      (findUserById s.users p.userId).isSome = true :=
    fun _ p hp _ => hown p.userId (List.mem_map_of_mem Post.userId hp)
  refine ⟨_, _, search_eq env s q hq (hown1 q), rfl, ?_, ?_, ?_, ?_, ?_⟩
  · apply filterMap_map_left
    intro p hp
    exact searchEntry_some (hown1 q p (List.mem_filter.mp hp).1 (List.mem_filter.mp hp).2)
  · intro e he
    obtain ⟨p, _, hpe⟩ := List.mem_filterMap.mp he
    obtain ⟨h1, owner, h2, h3⟩ := searchEntry_owner hpe
    exact ⟨owner, by rw [h1]; exact h2, h3⟩
  · intro u
    simp [userMatches, jsIncludes_iff]
  · intro p
    simp [postMatches, jsIncludes_iff]
  · intro q2 hq2 hlow
    rw [search_eq env s q hq (hown1 q), search_eq env s q2 hq2 (hown1 q2)]
    have hu : userMatches env q2 = userMatches env q := by
      funext u
      simp [userMatches, hlow]
    have hp : postMatches env q2 = postMatches env q := by
      funext p
      simp [postMatches, hlow]
    rw [hu, hp]

theorem reachableAuth_searchState : ReachableAuth (run State.empty searchRequests) := by
  have h1 := ReachableAuth.step ReachableAuth.init (sampleEnv 'a' 10)
    (.register (some "alice") (some "alice@example.org") (some "pw1") none none)
    (by intro c hc; cases hc)
  have h2 := ReachableAuth.step h1 (sampleEnv 'b' 20)
    (.register (some "bob") (some "bob@example.org") (some "pw2") none none)
    (by intro c hc; cases hc)
  have h3 := ReachableAuth.step h2 (sampleEnv 'c' 30) (.toggleFollow "b" "a")
    (by
      intro c hc
      cases hc
      decide)
  have h4 := ReachableAuth.step h3 (sampleEnv 'd' 40) (.createPost "a" (some "hi") none none)
    (by
      intro c hc
      cases hc
      decide)
  have h5 := ReachableAuth.step h4 (sampleEnv 'e' 50)
    (.createPost "b" (some "Hello World") (some "News, misc") none)
    (by
      intro c hc
      cases hc
      decide)
  exact h5

theorem search_matches_witness :
    ∃ (users : List UserSummary) (posts : List SearchEntry),
      search (sampleEnv 'f' 60) (run State.empty searchRequests) (some "NEWS") =
        (.searchResults users posts, run State.empty searchRequests) ∧
      users = ((run State.empty searchRequests).users.filter
        (userMatches (sampleEnv 'f' 60) "NEWS")).map summaryOf ∧
      posts.map SearchEntry.post =
        (run State.empty searchRequests).posts.filter (postMatches (sampleEnv 'f' 60) "NEWS") ∧
      (∀ e ∈ posts, ∃ owner,
        findUserById (run State.empty searchRequests).users e.post.userId = some owner ∧
        e.user = summaryOf owner) ∧
      (∀ u : User, userMatches (sampleEnv 'f' 60) "NEWS" u = true ↔
        (((sampleEnv 'f' 60).toLowerCase "NEWS").data <:+:
            ((sampleEnv 'f' 60).toLowerCase u.username).data ∨
          ((sampleEnv 'f' 60).toLowerCase "NEWS").data <:+:
            ((sampleEnv 'f' 60).toLowerCase u.fullName).data)) ∧
      (∀ p : Post, postMatches (sampleEnv 'f' 60) "NEWS" p = true ↔
        (((sampleEnv 'f' 60).toLowerCase "NEWS").data <:+:
            ((sampleEnv 'f' 60).toLowerCase p.content).data ∨
          ∃ t ∈ p.tags, ((sampleEnv 'f' 60).toLowerCase "NEWS").data <:+:
            ((sampleEnv 'f' 60).toLowerCase t).data)) ∧
      (∀ q2 : String, q2 ≠ "" →
        (sampleEnv 'f' 60).toLowerCase q2 = (sampleEnv 'f' 60).toLowerCase "NEWS" →
        search (sampleEnv 'f' 60) (run State.empty searchRequests) (some q2) =
          search (sampleEnv 'f' 60) (run State.empty searchRequests) (some "NEWS")) :=
  search_matches (sampleEnv 'f' 60) (run State.empty searchRequests) "NEWS"
    reachableAuth_searchState (by decide)

set_option maxRecDepth 100000 in
/-- The query `NEWS` finds bob's post tagged `News`, and so does `news`. -/
theorem search_case_example :
    search (sampleEnv 'f' 60) (run State.empty searchRequests) (some "NEWS") =
      (.searchResults []
        [⟨⟨"e", "b", "Hello World", "", ["News", "misc"], [], [], 50⟩,
          ⟨"b", "bob", "bob", ""⟩⟩],
        run State.empty searchRequests) ∧
    search (sampleEnv 'f' 60) (run State.empty searchRequests) (some "news") =
      search (sampleEnv 'f' 60) (run State.empty searchRequests) (some "NEWS") := by
  decide

set_option maxRecDepth 100000 in
/-- C20 fails on the code: a create-post call with an id that no user has is answered 500
but leaves its post `boo` in the store; from then on the search for `boo`, which matches
that stored post, is answered 500 instead of the list holding the post. -/
theorem search_unregistered_owner_fails :
    handle (sampleEnv 'g' 5) State.empty (.createPost "ghost" (some "boo") none none) =
      (.error 500 "Server error", ghostPostState) ∧
    ghostPostState.posts.filter (postMatches (sampleEnv 'f' 60) "boo") =
      [⟨"g", "ghost", "boo", "", [], [], [], 5⟩] ∧
    search (sampleEnv 'f' 60) ghostPostState (some "boo") =
      (.error 500 "Server error", ghostPostState) := by
  decide

/-! ## Feed order and annotations -/

theorem feedEntry_fields {users : List User} {u : String} {post : Post} {e : FeedEntry}
    (h : feedEntry users u post = some e) :
    e.post = post ∧ e.likesCount = post.likes.length ∧
    e.commentsCount = post.comments.length ∧ e.isLiked = decide (u ∈ post.likes) ∧
    ∃ owner, findUserById users post.userId = some owner ∧
      e.user = ⟨owner.id, owner.username, owner.fullName, owner.avatar⟩ := by
  unfold feedEntry at h
  cases ho : findUserById users post.userId with
  | none => simp [ho] at h
  | some owner =>
    simp only [ho, Option.some.injEq] at h
    rw [← h]
    refine ⟨rfl, rfl, rfl, ?_, owner, rfl, rfl⟩
    simp

/-- C21. In every store the server can reach, for a registered user `u`, the feed call
answers with a feed whose creation times are non-increasing along it (newest first); each
entry's `likesCount` is the length of its post's liker list, its `commentsCount` the
length of the post's comment ids, its `isLiked` tells whether `u` is among the likers,
and its author summary holds the id, username, display name and avatar of the stored
record of the post's owner. -/
theorem feed_order_and_annotations (s : State) (u : String) (user : User) (hs : Reachable s)
    (hu : findUserById s.users u = some user) :
    ∃ entries : List FeedEntry,
      feed s u = (.feed entries, s) ∧
      entries.Pairwise (fun a b => b.post.createdAt ≤ a.post.createdAt) ∧
      ∀ e ∈ entries,
        e.post ∈ s.posts ∧
        e.likesCount = e.post.likes.length ∧
        e.commentsCount = e.post.comments.length ∧
        e.isLiked = decide (u ∈ e.post.likes) ∧
        ∃ owner, findUserById s.users e.post.userId = some owner ∧
          e.user = ⟨owner.id, owner.username, owner.fullName, owner.avatar⟩ := by
  haveI : IsTotal FeedEntry (fun a b => feedCmp a b ≤ 0) :=
    ⟨fun a b => by
      simp only [feedCmp]
      omega⟩
  haveI : IsTrans FeedEntry (fun a b => feedCmp a b ≤ 0) :=
    ⟨fun a b c h1 h2 => by
      simp only [feedCmp] at h1 h2 ⊢
      omega⟩
  have hreg := (reachable_wellFormed hs).users.followingRegistered u user hu
  refine ⟨_, feed_eq s u user hu hreg, ?_, ?_⟩
  · have := List.sorted_insertionSort (fun a b => feedCmp a b ≤ 0)
      ((s.posts.filter (fun post => (u :: user.following).contains post.userId)).filterMap
        (feedEntry s.users u))
    refine List.Pairwise.imp ?_ this
    intro a b h
    simp only [feedCmp] at h
    omega
  · intro e he
    simp only [jsSort, List.mem_insertionSort, List.mem_filterMap, List.mem_filter] at he
    obtain ⟨p, ⟨hp, _⟩, hpe⟩ := he
    obtain ⟨h1, h2, h3, h4, h5⟩ := feedEntry_fields hpe
    rw [h1]
    exact ⟨hp, h2, h3, h4, h5⟩

set_option maxRecDepth 100000 in
theorem twoAuthorState_bob :
    findUserById (run State.empty twoAuthorRequests).users "b" =
      some ⟨"b", "bob", "bob@example.org", "hashed:pw2", "bob", "", "", 20, [], ["a"]⟩ := by
  decide

theorem feed_order_and_annotations_witness :
    ∃ entries : List FeedEntry,
      feed (run State.empty twoAuthorRequests) "b" =
        (.feed entries, run State.empty twoAuthorRequests) ∧
      entries.Pairwise (fun a b => b.post.createdAt ≤ a.post.createdAt) ∧
      ∀ e ∈ entries,
        e.post ∈ (run State.empty twoAuthorRequests).posts ∧
        e.likesCount = e.post.likes.length ∧
        e.commentsCount = e.post.comments.length ∧
        e.isLiked = decide ("b" ∈ e.post.likes) ∧
        ∃ owner, findUserById (run State.empty twoAuthorRequests).users e.post.userId =
            some owner ∧
          e.user = ⟨owner.id, owner.username, owner.fullName, owner.avatar⟩ :=
  feed_order_and_annotations (run State.empty twoAuthorRequests) "b" _
    (reachable_run Reachable.init twoAuthorRequests) twoAuthorState_bob

set_option maxRecDepth 100000 in
/-- Bob's feed in that store lists his newer post before alice's older one. -/
theorem feed_order_example :
    (feed (run State.empty twoAuthorRequests) "b").1 =
      .feed
        [⟨⟨"e", "b", "yo", "", [], [], [], 50⟩, ⟨"b", "bob", "bob", ""⟩, 0, 0, false⟩,
          ⟨⟨"d", "a", "hi", "", [], [], [], 40⟩, ⟨"a", "alice", "alice", ""⟩, 0, 0, false⟩] := by
  decide

/-! ## Registered references -/

theorem handle_comment_authors (env : Env) (s : State) (r : Request) :
    (handle env s r).2.comments = s.comments ∨
    ∃ (c : String) (cm : Comment), r.mutatingCaller = some c ∧ cm.userId = c ∧
      (handle env s r).2.comments = s.comments ++ [cm] := by
  cases r with
  | register username email password fullName bio =>
    left
    simp only [handle, register_unfold]
    split_ifs <;> rfl
  | login email password => exact Or.inl (by simp [handle, login_state])
  | updateProfile caller id fullName bio file =>
    left
    simp only [handle, updateProfile]
    cases findUserById s.users id with
    | none => rfl
    | some user =>
      simp only []
      split_ifs <;> rfl
  | createPost caller content tags file =>
    left
    simp only [handle, createPost]
    split_ifs
    · rfl
    · cases findUserById s.users caller <;> rfl
  | feed caller => exact Or.inl (by simp [handle, feed_state])
  | trending limitQuery => exact Or.inl (by simp [handle, trending_state])
  | toggleLike caller postId =>
    left
    simp only [handle, toggleLike]
    cases findPostById s.posts postId with
    | none => rfl
    | some post =>
      simp only []
      split_ifs
      · cases findUserById s.users caller <;> rfl
      · rfl
      · rfl
  | addComment caller postId content =>
    simp only [handle, addComment]
    split_ifs
    · exact Or.inl rfl
    · cases findPostById s.posts postId with
      | none => exact Or.inl rfl
      | some post =>
        right
        refine ⟨caller, ⟨env.uuid 0, postId, caller, content.getD "", env.now 0⟩, rfl, rfl, ?_⟩
        simp only []
        split_ifs
        · cases findUserById s.users caller <;> rfl
        · rfl
  | toggleFollow caller target =>
    left
    simp only [handle, toggleFollow]
    split_ifs
    · rfl
    · cases findUserById s.users target with
      | none => cases findUserById s.users caller <;> rfl
      | some tu =>
        cases findUserById s.users caller with
        | none => rfl
        | some cu =>
          simp only []
          split_ifs <;> rfl
  | listNotifications caller => exact Or.inl (by simp [handle, listNotifications])
  | markRead caller id =>
    left
    simp only [handle, markRead]
    cases s.notifications.find? (fun n => decide (n.id = id)) with
    | none => rfl
    | some n =>
      simp only []
      split_ifs <;> rfl
  | search q => exact Or.inl (by simp [handle, search_state])

theorem findPostById_mem {posts : List Post} {id : String} {post : Post}
    (h : findPostById posts id = some post) : post ∈ posts :=
  List.mem_of_find?_eq_some h

theorem handle_notification_recipients (env : Env) (s : State) (r : Request)
    (hw : UsersOK s.users) (ho : ∀ p ∈ s.posts, (findUserById s.users p.userId).isSome = true) :
    ∀ x ∈ (handle env s r).2.notifications.map Notification.userId,
      x ∈ s.notifications.map Notification.userId ∨ (findUserById s.users x).isSome = true := by
  intro x hx
  cases r with
  | register username email password fullName bio =>
    left
    simp only [handle, register_unfold] at hx
    split_ifs at hx <;> exact hx
  | login email password => exact Or.inl (by simpa [handle, login_state] using hx)
  | updateProfile caller id fullName bio file =>
    left
    simp only [handle, updateProfile] at hx
    cases hf : findUserById s.users id with
    | none => simpa [hf] using hx
    | some user =>
      simp only [hf] at hx
      split_ifs at hx <;> exact hx
  | createPost caller content tags file =>
    simp only [handle, createPost] at hx
    split_ifs at hx
    · exact Or.inl hx
    · cases hf : findUserById s.users caller with
      | none => exact Or.inl (by simpa [hf] using hx)
      | some user =>
        simp only [hf, List.map_append] at hx
        rcases List.mem_append.mp hx with h | h
        · exact Or.inl h
        · right
          have hmap : (user.followers.enum.map
              (fun p => newPostNotification env user (env.uuid 0) p.1 p.2)).map
                Notification.userId = user.followers :=
            enum_map_snd_eq (newPostNotification env user (env.uuid 0)) Notification.userId
              user.followers (fun _ _ => rfl) 0
          have hx1 : x ∈ user.followers := by
            rw [← hmap]
            simpa [newPostRecord] using h
          exact hw.followersRegistered caller user hf x hx1
  | feed caller => exact Or.inl (by simpa [handle, feed_state] using hx)
  | trending limitQuery => exact Or.inl (by simpa [handle, trending_state] using hx)
  | toggleLike caller postId =>
    simp only [handle, toggleLike] at hx
    cases hp : findPostById s.posts postId with
    | none => exact Or.inl (by simpa [hp] using hx)
    | some post =>
      simp only [hp] at hx
      split_ifs at hx
      · cases hf : findUserById s.users caller with
        | none => exact Or.inl (by simpa [hf] using hx)
        | some user =>
          simp only [hf, List.map_append] at hx
          rcases List.mem_append.mp hx with h | h
          · exact Or.inl h
          · right
            have : x = post.userId := by simpa [likeNotification] using h
            rw [this]
            exact ho post (findPostById_mem hp)
      · exact Or.inl hx
      · exact Or.inl hx
  | addComment caller postId content =>
    simp only [handle, addComment] at hx
    split_ifs at hx
    · exact Or.inl hx
    · cases hp : findPostById s.posts postId with
      | none => exact Or.inl (by simpa [hp] using hx)
      | some post =>
        simp only [hp] at hx
        split_ifs at hx
        · cases hf : findUserById s.users caller with
          | none => exact Or.inl (by simpa [hf] using hx)
          | some user =>
            simp only [hf, List.map_append] at hx
            rcases List.mem_append.mp hx with h | h
            · exact Or.inl h
            · right
              have : x = post.userId := by simpa [commentNotification] using h
              rw [this]
              exact ho post (findPostById_mem hp)
        · exact Or.inl hx
  | toggleFollow caller target =>
    simp only [handle, toggleFollow] at hx
    split_ifs at hx
    · exact Or.inl hx
    · cases ht : findUserById s.users target with
      | none =>
        cases hc : findUserById s.users caller <;> exact Or.inl (by simpa [ht, hc] using hx)
      | some tu =>
        cases hc : findUserById s.users caller with
        | none => exact Or.inl (by simpa [ht, hc] using hx)
        | some cu =>
          simp only [ht, hc] at hx
          split_ifs at hx
          · exact Or.inl hx
          · simp only [List.map_append] at hx
            rcases List.mem_append.mp hx with h | h
            · exact Or.inl h
            · right
              have : x = target := by simpa [followNotification] using h
              rw [this, ht]
              rfl
  | listNotifications caller => exact Or.inl (by simpa [handle, listNotifications] using hx)
  | markRead caller id =>
    left
    simp only [handle, markRead] at hx
    cases hf : s.notifications.find? (fun n => decide (n.id = id)) with
    | none => simpa [hf] using hx
    | some n =>
      simp only [hf] at hx
      split_ifs at hx
      · exact hx
      · rw [updateFirst_map_eq _ setRead Notification.userId (fun _ => rfl)] at hx
        exact hx
  | search q => exact Or.inl (by simpa [handle, search_state] using hx)

theorem reachableAuth_referencesRegistered {s : State} (h : ReachableAuth s) :
    ReferencesRegistered s := by
  induction h with
  | init =>
    refine ⟨?_, ?_, ?_⟩ <;> intro x hx <;> simp [State.empty] at hx
  | @step s hs env r hc ih =>
    have hposts := reachableAuth_ownersRegistered (ReachableAuth.step hs env r hc)
    have hw := (reachable_wellFormed (reachableAuth_reachable hs)).users
    refine ⟨?_, ?_, ?_⟩
    · intro p hp
      exact hposts p.userId (List.mem_map_of_mem Post.userId hp)
    · intro c hcm
      apply handle_findUser_isSome
      rcases handle_comment_authors env s r with e | ⟨a, cm, ha, hcma, e⟩
      · rw [e] at hcm
        exact ih.2.1 c hcm
      · rw [e] at hcm
        rcases List.mem_append.mp hcm with h1 | h1
        · exact ih.2.1 c h1
        · have : c = cm := by simpa using h1
          rw [this, hcma]
          exact hc a ha
    · intro n hn
      apply handle_findUser_isSome
      rcases handle_notification_recipients env s r hw ih.1 n.userId
          (List.mem_map_of_mem Notification.userId hn) with h1 | h1
      · obtain ⟨m, hm, hmn⟩ := List.mem_map.mp h1
        rw [← hmn]
        exact ih.2.2 m hm
      · exact h1
  | resume _ env username email password fullName bio _ ih =>
    refine ⟨?_, ?_, ?_⟩
    · intro p hp
      exact registerResume_findUser_isSome env _ username email password fullName bio _
        (ih.1 p hp)
    · intro c hcm
      exact registerResume_findUser_isSome env _ username email password fullName bio _
        (ih.2.1 c hcm)
    · intro n hn
      exact registerResume_findUser_isSome env _ username email password fullName bio _
        (ih.2.2 n hn)

/-- C22. In every store the server reaches when each writing request is made with the id
of a registered user, every stored post's owner id, every stored comment's author id and
every stored notification's recipient id belongs to a registered user; so for every
stored post the author lookups of feed, trending and search find a user, and feed (for a
registered caller), trending and search (for a non-empty query) answer with their lists
rather than with a failure. Without that precondition: a create-post call with an id that
no user has, answered 500, leaves behind a post whose owner lookup finds nobody, after
which trending and the search matching that post are answered 500. -/
theorem registered_callers_keep_references (env : Env) (s : State) (c q : String)
    (caller : User) (limitQuery : Option Nat) (hs : ReachableAuth s)
    (hc : findUserById s.users c = some caller) (hq : q ≠ "") :
    ((∀ p ∈ s.posts, (findUserById s.users p.userId).isSome = true) ∧
      (∀ cm ∈ s.comments, (findUserById s.users cm.userId).isSome = true) ∧
      (∀ n ∈ s.notifications, (findUserById s.users n.userId).isSome = true)) ∧
    (∀ p ∈ s.posts,
      (feedEntry s.users c p).isSome = true ∧ (trendingEntry s.users p).isSome = true ∧
      (searchEntry s.users p).isSome = true) ∧
    (∃ entries, feed s c = (.feed entries, s)) ∧
    (∃ entries, trending s limitQuery = (.trending entries, s)) ∧
    (∃ users posts, search env s (some q) = (.searchResults users posts, s)) ∧
    (findUserById State.empty.users "ghost" = none ∧
      handle (sampleEnv 'g' 5) State.empty (.createPost "ghost" (some "boo") none none) =
        (.error 500 "Server error", ghostPostState) ∧
      ghostPostState.posts = [⟨"g", "ghost", "boo", "", [], [], [], 5⟩] ∧
      findUserById ghostPostState.users "ghost" = none ∧
      trending ghostPostState limitQuery = (.error 500 "Server error", ghostPostState) ∧
      search (sampleEnv 'f' 60) ghostPostState (some "boo") =
        (.error 500 "Server error", ghostPostState)) := by
  have href := reachableAuth_referencesRegistered hs
  have hreach := reachableAuth_reachable hs
  refine ⟨href, ?_, ?_, ?_, ?_, ?_⟩
  · intro p hp
    have hsome := href.1 p hp
    refine ⟨feedEntry_isSome hsome, ?_, ?_⟩
    · obtain ⟨e, he, _⟩ := trendingEntry_some hsome
      simp [he]
    · obtain ⟨e, he, _⟩ := searchEntry_some hsome
      simp [he]
  · exact ⟨_, feed_eq s c caller hc
      ((reachable_wellFormed hreach).users.followingRegistered c caller hc)⟩
  · exact ⟨_, trending_eq s limitQuery href.1⟩
  · exact ⟨_, _, search_eq env s q hq (fun p hp _ => href.1 p hp)⟩
  · refine ⟨rfl, by decide, by decide, by decide, ?_, by decide⟩
    have hlimit : trending ghostPostState limitQuery = trending ghostPostState none := rfl
    rw [hlimit]
    decide

theorem registered_callers_keep_references_witness :
    ((∀ p ∈ (run State.empty searchRequests).posts,
        (findUserById (run State.empty searchRequests).users p.userId).isSome = true) ∧
      (∀ cm ∈ (run State.empty searchRequests).comments,
        (findUserById (run State.empty searchRequests).users cm.userId).isSome = true) ∧
      (∀ n ∈ (run State.empty searchRequests).notifications,
        (findUserById (run State.empty searchRequests).users n.userId).isSome = true)) ∧
    (∀ p ∈ (run State.empty searchRequests).posts,
      (feedEntry (run State.empty searchRequests).users "b" p).isSome = true ∧
      (trendingEntry (run State.empty searchRequests).users p).isSome = true ∧
      (searchEntry (run State.empty searchRequests).users p).isSome = true) ∧
    (∃ entries, feed (run State.empty searchRequests) "b" =
      (.feed entries, run State.empty searchRequests)) ∧
    (∃ entries, trending (run State.empty searchRequests) none =
      (.trending entries, run State.empty searchRequests)) ∧
    (∃ users posts, search (sampleEnv 'f' 60) (run State.empty searchRequests) (some "hello") =
      (.searchResults users posts, run State.empty searchRequests)) ∧
    (findUserById State.empty.users "ghost" = none ∧
      handle (sampleEnv 'g' 5) State.empty (.createPost "ghost" (some "boo") none none) =
        (.error 500 "Server error", ghostPostState) ∧
      ghostPostState.posts = [⟨"g", "ghost", "boo", "", [], [], [], 5⟩] ∧
      findUserById ghostPostState.users "ghost" = none ∧
      trending ghostPostState none = (.error 500 "Server error", ghostPostState) ∧
      search (sampleEnv 'f' 60) ghostPostState (some "boo") =
        (.error 500 "Server error", ghostPostState)) :=
  registered_callers_keep_references (sampleEnv 'f' 60) (run State.empty searchRequests) "b"
    "hello" ⟨"b", "bob", "bob@example.org", "hashed:pw2", "bob", "", "", 20, [], ["a"]⟩ none
    reachableAuth_searchState (by decide) (by decide)

/-! ## Overlapping registrations -/

theorem registerCheck_empty {s : State} {username email password : Option String}
    (h : registerCheck s username email password = none) :
    registerCheck State.empty username email password = none := by
  have hf := registerCheck_fields h
  simp [registerCheck, hf, State.empty]

theorem react_reachable (v : Server) (e : Event) (hs : Reachable v.store)
    (hp : ∀ reg ∈ v.pending,
      registerCheck State.empty reg.username reg.email reg.password = none) :
    Reachable (v.react e).2.store ∧
    ∀ reg ∈ (v.react e).2.pending,
      registerCheck State.empty reg.username reg.email reg.password = none := by
  cases e with
  | request env r => exact ⟨Reachable.step hs env r, hp⟩
  | registerArrives username email password fullName bio =>
    simp only [Server.react]
    cases hc : registerCheck v.store username email password with
    | some response => exact ⟨hs, hp⟩
    | none =>
      refine ⟨hs, ?_⟩
      intro reg hreg
      rcases List.mem_append.mp hreg with h1 | h1
      · exact hp reg h1
      · have : reg = ⟨username, email, password, fullName, bio⟩ := by simpa using h1
        rw [this]
        exact registerCheck_empty hc
  | hashReturns env k =>
    simp only [Server.react]
    cases hk : v.pending.get? k with
    | none => exact ⟨hs, hp⟩
    | some reg =>
      refine ⟨Reachable.resume hs env _ _ _ _ _ (hp reg (List.get?_mem hk)), ?_⟩
      intro r hr
      exact hp r (List.mem_of_mem_eraseIdx hr)

/-- Every store the event loop produces, registrations overlapping other requests
included, is a reachable store. -/
theorem runEvents_reachable (es : List Event) (v : Server) (hs : Reachable v.store)
    (hp : ∀ reg ∈ v.pending,
      registerCheck State.empty reg.username reg.email reg.password = none) :
    Reachable (v.runEvents es).2.store := by
  induction es generalizing v with
  | nil => exact hs
  | cons e rest ih =>
    exact ih (v.react e).2 (react_reachable v e hs hp).1 (react_reachable v e hs hp).2

set_option maxRecDepth 100000 in
/-- C13 fails on the code. Two register requests with the same username and email, the
second arriving while the first waits for `bcrypt.hash`, both pass the duplicate checks
(nothing is stored yet), both are answered 201 when their hashes return, and the store, one
the server can be in, then holds two users with the same email and the same username: the
checks are made before the wait and the push after it. Handled one after the other, the
same two requests give 201 and then `Email already registered`, and one stored user. -/
theorem register_overlapping_duplicates :
    (Server.start.runEvents overlappingRegistrations).1 =
      [none, none,
        some (.registered "User registered successfully"
          ⟨"a", "alice", "alice@example.org", "alice", "", ""⟩ "a" "alice"),
        some (.registered "User registered successfully"
          ⟨"b", "alice", "alice@example.org", "alice", "", ""⟩ "b" "alice")] ∧
    (Server.start.runEvents overlappingRegistrations).2.store.users =
      [⟨"a", "alice", "alice@example.org", "hashed:pw1", "alice", "", "", 10, [], []⟩,
        ⟨"b", "alice", "alice@example.org", "hashed:pw1", "alice", "", "", 20, [], []⟩] ∧
    Reachable (Server.start.runEvents overlappingRegistrations).2.store ∧
    ¬ List.Pairwise (fun v w : User => v.email ≠ w.email ∧ v.username ≠ w.username)
      (Server.start.runEvents overlappingRegistrations).2.store.users ∧
    (Server.start.runEvents successiveRegistrations).1 =
      [some (.registered "User registered successfully"
          ⟨"a", "alice", "alice@example.org", "alice", "", ""⟩ "a" "alice"),
        some (.error 400 "Email already registered")] ∧
    (Server.start.runEvents successiveRegistrations).2.store.users =
      [⟨"a", "alice", "alice@example.org", "hashed:pw1", "alice", "", "", 10, [], []⟩] := by
  refine ⟨by decide, by decide, ?_, ?_, by decide, by decide⟩
  · exact runEvents_reachable _ _ Reachable.init (by intro reg hreg; simp [Server.start] at hreg)
  · have hu : (Server.start.runEvents overlappingRegistrations).2.store.users =
        [⟨"a", "alice", "alice@example.org", "hashed:pw1", "alice", "", "", 10, [], []⟩,
          ⟨"b", "alice", "alice@example.org", "hashed:pw1", "alice", "", "", 20, [], []⟩] := by
      decide
    rw [hu]
    simp

end SocialServer
